import Mathlib

/-!
# Verification of the blackboard coordination engine

A shallow embedding of the multi-agent fumigation coordination system
(`agents/blackboard`, `agents/agents_core`, `agents/simulation`,
`world/pathfinding`) into Lean 4, together with theorems settling the
claims about its natural-language specification.

Modelling conventions:
* Python machine floats are modelled by exact rationals.  Every constant that
  appears (1.5, 100.0, 1.05, 1.2) and every product that is actually reached
  before a cap or a comparison is exactly representable in binary64, so the
  rational model agrees with the float semantics on the reachable values.
* `datetime` values are modelled as integer timestamps.
* Python dictionaries are modelled as association lists in insertion order
  (re-assigning an existing key keeps its position, as in CPython).
* A raised exception is modelled with `Except` (when only the raise matters)
  or with a `state × Option PyErr` pair (when the mutations already performed
  before the raise matter, since CPython keeps in-place mutations on unwind).
* Python attribute access on a dataclass is total on the declared fields; an
  access to an undeclared attribute raises `AttributeError`.  The declared
  field names of each class are recorded verbatim so the missing-attribute
  facts are checkable (`taskStateAttrs`, `kbMethodNames`).
-/

/-- Python exceptions that the embedded code can raise. -/
inductive PyErr where
  | attributeError (attr : String)
deriving DecidableEq, Repr

/-- Grid positions `(x, z)`, as in the source. -/
abbrev Pos : Type := Int × Int

/-- The `world.world_generator.TileType.IMPASSABLE`. -/
def tIMPASSABLE : Int := 0

/-- The `world.world_generator.TileType.ROAD`. -/
def tROAD : Int := 1

/-- The `world.world_generator.TileType.FIELD`. -/
def tFIELD : Int := 2

/-- The `world.world_generator.TileType.BARN`. -/
def tBARN : Int := 3

/-- Python `int(q)`: truncation toward zero (`int()` of a nonnegative float is
its floor, of a negative float its ceiling). -/
def pyInt (q : ℚ) : ℤ := if 0 ≤ q then ⌊q⌋ else ⌈q⌉

/-- Guarded 2-dimensional list indexing, mirroring the source's
`0 <= z < len(grid) and 0 <= x < len(grid[z])` checks before `grid[z][x]`. -/
def gridGet (g : List (List Int)) (x z : Int) : Option Int :=
  if 0 ≤ z ∧ 0 ≤ x then
    match g.get? z.toNat with
    | some row => row.get? x.toNat
    | none => none
  else none

/-- Write `grid[z][x] = v` (callers perform the bounds check). -/
def gridSet (g : List (List Int)) (x z v : Int) : List (List Int) :=
  if 0 ≤ z ∧ 0 ≤ x then
    match g.get? z.toNat with
    | some row => g.set z.toNat (row.set x.toNat v)
    | none => g
  else g

/-- Manhattan distance (`TaskAllocatorKS._manhattan_distance` and the inlined
copies in `ResourceManagerKS` / `SimulationControllerKS`). -/
def manhattan (p q : Pos) : Int := (p.1 - q.1).natAbs + (p.2 - q.2).natAbs

/-! ## Events (`knowledge_base.py` lines 16-42) -/

/-- The `EventType` enumeration. -/
inductive EventType where
  | fieldDiscovered
  | taskCreated
  | taskAssigned
  | taskCompleted
  | taskFailed
  | agentMoved
  | agentIdle
  | agentLowResource
  | agentRefilled
  | conflictDetected
  | pathCalculated
  | scoutExplorationComplete
deriving DecidableEq, Repr

/-- An event record; only the payload fields the claims inspect are kept
(the timestamp and free-form parts of `data` are not needed by any claim). -/
structure Event where
  etype : EventType
  agentId : Option String
  taskId : Option String
  epos : Option Pos
deriving DecidableEq, Repr

/-- The bounded event history: append, then drop the oldest entry when the
length exceeds `_max_events = 1000` (`KnowledgeBase._emit_event`). -/
def pushEvent (evs : List Event) (e : Event) : List Event :=
  let evs2 := evs ++ [e]
  if 1000 < evs2.length then evs2.drop 1 else evs2

/-- The `AGENT_MOVED` event emitted by `update_agent`. -/
def agentMovedEvent (aid : String) (p : Pos) : Event :=
  { etype := .agentMoved, agentId := some aid, taskId := none, epos := some p }

/-- The `AGENT_IDLE` event emitted by `update_agent`. -/
def agentIdleEvent (aid : String) : Event :=
  { etype := .agentIdle, agentId := some aid, taskId := none, epos := none }

/-! ## Agent and task state (`knowledge_base.py` lines 45-101) -/

/-- The `AgentState` dataclass (the `analyzed_positions` set and the free-form
`metadata` dict are not read by any claim and are omitted). -/
structure AgentState where
  agent_id : String
  agent_type : String
  position : Pos
  status : String
  pesticide_level : Int
  pesticide_capacity : Int
  current_task_id : Option String
  fields_analyzed : Int
  tasks_completed : Int
  fields_fumigated : Int
  path : List Pos
  path_index : Nat
deriving DecidableEq, Repr

/-- The `TaskState` dataclass (the free-form `metadata` dict is omitted;
`created_at` is always set by `__post_init__`, hence not optional). -/
structure TaskState where
  task_id : String
  position : Pos
  infestation_level : Int
  priority : String
  status : String
  assigned_agent_id : Option String
  created_at : Int
  assigned_at : Option Int
  completed_at : Option Int
deriving DecidableEq, Repr

/-- The attribute names the `TaskState` dataclass declares
(`knowledge_base.py` lines 74-91), verbatim.  `hasattr(task, k)` holds
exactly for these names. -/
def taskStateAttrs : List String :=
  ["task_id", "position", "infestation_level", "priority", "status",
   "assigned_agent_id", "created_at", "assigned_at", "completed_at", "metadata"]

/-- The `hasattr(task, k)` for a `TaskState`. -/
def hasattrTask (k : String) : Bool := k ∈ taskStateAttrs

/-- Python attribute read `task.failure_count`.  `TaskState` declares no field
of this name, so the access raises `AttributeError` on every task. -/
def TaskState.readFailureCount (_t : TaskState) : Except PyErr Int :=
  .error (.attributeError "failure_count")

/-- Python attribute read `task.last_failure_at`; likewise undeclared. -/
def TaskState.readLastFailureAt (_t : TaskState) : Except PyErr (Option Int) :=
  .error (.attributeError "last_failure_at")

/-- The method names the `KnowledgeBase` class defines
(`knowledge_base.py` lines 105-402), verbatim. -/
def kbMethodNames : List String :=
  ["register_agent", "update_agent", "get_agent", "get_all_agents",
   "get_agents_by_type", "get_idle_agents", "create_task", "update_task",
   "get_task", "get_tasks_by_status", "get_pending_tasks", "get_all_tasks",
   "update_infestation", "update_field_weight", "get_infestation",
   "get_field_weight", "emit_event", "subscribe", "get_recent_events",
   "set_shared", "get_shared", "delete_shared", "get_statistics"]

/-! ## Commands and the shared store -/

/-- A command written into the per-agent mailbox
(`execute_task` / `refill_pesticide` / `move`). -/
structure Command where
  action : String
  task_id : Option String
  task_position : Option Pos
  barn_position : Option Pos
  urgent : Bool
  cpath : Option (List Pos)
deriving DecidableEq, Repr

/-- Values stored in `KnowledgeBase._shared_data`. -/
inductive SharedVal where
  | cmd (c : Command)
  | flag (b : Bool)
deriving DecidableEq, Repr

/-- The string keys actually used in `_shared_data`: the f-string
`command_{agent_id}` (injective in the agent id) and the literal
`simulation_ready_to_complete`. -/
inductive SharedKey where
  | commandOf (aid : String)
  | simReady
deriving DecidableEq, Repr

/-- Association-list (ordered-dict) lookup. -/
def assocGet {κ α : Type} [DecidableEq κ] : List (κ × α) → κ → Option α
  | [], _ => none
  | p :: ps, k => if p.1 = k then some p.2 else assocGet ps k

/-- Association-list write: replace in place if present (CPython dicts keep
the original insertion position), else append. -/
def assocSet {κ α : Type} [DecidableEq κ] : List (κ × α) → κ → α → List (κ × α)
  | [], k, v => [(k, v)]
  | p :: ps, k, v => if p.1 = k then (k, v) :: ps else p :: assocSet ps k v

/-- Association-list delete. -/
def assocDel {κ α : Type} [DecidableEq κ] (m : List (κ × α)) (k : κ) :
    List (κ × α) :=
  m.filter (fun p => ¬ p.1 = k)

/-! ## The KnowledgeBase -/

/-- The shared state of the system: world grids, the agent and task
registries (dict values in insertion order, ids unique), the bounded event
history and the shared key-value store. -/
structure KB where
  width : Int
  height : Int
  grid : List (List Int)
  infestation : List (List Int)
  fieldWeights : List (Pos × ℚ)
  barnPositions : List Pos
  agents : List AgentState
  tasks : List TaskState
  events : List Event
  shared : List (SharedKey × SharedVal)
deriving DecidableEq, Repr

/-- The `KnowledgeBase.get_agent`. -/
def KB.getAgent (kb : KB) (aid : String) : Option AgentState :=
  kb.agents.find? (fun a => a.agent_id = aid)

/-- The `KnowledgeBase.get_task`. -/
def KB.getTask (kb : KB) (tid : String) : Option TaskState :=
  kb.tasks.find? (fun t => t.task_id = tid)

/-- The `KnowledgeBase.get_agents_by_type`. -/
def KB.getAgentsByType (kb : KB) (ty : String) : List AgentState :=
  kb.agents.filter (fun a => a.agent_type = ty)

/-- The `KnowledgeBase.get_idle_agents` (optional type filter, then status). -/
def KB.getIdleAgents (kb : KB) (ty : Option String) : List AgentState :=
  let base : List AgentState := match ty with
    | some t => kb.agents.filter (fun a => a.agent_type = t)
    | none => kb.agents
  base.filter (fun a => a.status = "idle")

/-- The `KnowledgeBase.get_tasks_by_status`. -/
def KB.getTasksByStatus (kb : KB) (st : String) : List TaskState :=
  kb.tasks.filter (fun t => t.status = st)

/-- The `KnowledgeBase.get_infestation`: bounds-checked read, default 0. -/
def KB.getInfestation (kb : KB) (x z : Int) : Int :=
  if 0 ≤ x ∧ x < kb.width ∧ 0 ≤ z ∧ z < kb.height then
    (gridGet kb.infestation x z).getD 0
  else 0

/-- The `KnowledgeBase.update_infestation`: bounds-checked write. -/
def KB.updateInfestation (kb : KB) (x z lvl : Int) : KB :=
  if 0 ≤ x ∧ x < kb.width ∧ 0 ≤ z ∧ z < kb.height then
    { kb with infestation := gridSet kb.infestation x z lvl }
  else kb

/-- The `KnowledgeBase.get_field_weight`: dict read, default 0.0. -/
def KB.getFieldWeight (kb : KB) (x z : Int) : ℚ :=
  (assocGet kb.fieldWeights (x, z)).getD 0

/-- The `KnowledgeBase.update_field_weight`. -/
def KB.updateFieldWeight (kb : KB) (x z : Int) (w : ℚ) : KB :=
  { kb with fieldWeights := assocSet kb.fieldWeights (x, z) w }

/-- The `KnowledgeBase.get_shared` (default `None`). -/
def KB.getShared (kb : KB) (k : SharedKey) : Option SharedVal :=
  assocGet kb.shared k

/-- The `KnowledgeBase.set_shared`. -/
def KB.setShared (kb : KB) (k : SharedKey) (v : SharedVal) : KB :=
  { kb with shared := assocSet kb.shared k v }

/-- The `KnowledgeBase.delete_shared`. -/
def KB.deleteShared (kb : KB) (k : SharedKey) : KB :=
  { kb with shared := assocDel kb.shared k }

/-- Append an event to the bounded history. -/
def KB.emitEvent (kb : KB) (e : Event) : KB :=
  { kb with events := pushEvent kb.events e }

/-- The `KnowledgeBase.get_recent_events`: optional type filter, then the last
`limit` entries (`events[-limit:]`). -/
def KB.getRecentEvents (kb : KB) (ty : Option EventType) (limit : Nat) :
    List Event :=
  let evs : List Event := match ty with
    | some t => kb.events.filter (fun e => e.etype = t)
    | none => kb.events
  evs.drop (evs.length - limit)

/-! ## Partial updates (`update_agent` / `update_task`) -/

/-- A `**updates` keyword set for `update_agent`.  Every field below names a
declared `AgentState` attribute, so the `hasattr(agent, key)` filter passes
for each present key. -/
structure AgentUpdate where
  uposition : Option Pos
  ustatus : Option String
  upath : Option (List Pos)
  upath_index : Option Nat
  ucurrent_task_id : Option (Option String)
  upesticide_level : Option Int
  utasks_completed : Option Int
  ufields_fumigated : Option Int
  ufields_analyzed : Option Int
deriving Repr

/-- The empty keyword set. -/
def noAgentUpdate : AgentUpdate :=
  { uposition := none, ustatus := none, upath := none, upath_index := none,
    ucurrent_task_id := none, upesticide_level := none,
    utasks_completed := none, ufields_fumigated := none,
    ufields_analyzed := none }

/-- Apply the present keys of an update to an agent (all keys pass the
`hasattr` filter, see `AgentUpdate`). -/
def applyAgentUpdate (a : AgentState) (u : AgentUpdate) : AgentState :=
  { a with
    position := u.uposition.getD a.position
    status := u.ustatus.getD a.status
    path := u.upath.getD a.path
    path_index := u.upath_index.getD a.path_index
    current_task_id := u.ucurrent_task_id.getD a.current_task_id
    pesticide_level := u.upesticide_level.getD a.pesticide_level
    tasks_completed := u.utasks_completed.getD a.tasks_completed
    fields_fumigated := u.ufields_fumigated.getD a.fields_fumigated
    fields_analyzed := u.ufields_analyzed.getD a.fields_analyzed }

/-- Update the (unique) agent with the given id, in place. -/
def setAgent (ags : List AgentState) (aid : String)
    (f : AgentState → AgentState) : List AgentState :=
  ags.map (fun a => if a.agent_id = aid then f a else a)

/-- The `KnowledgeBase.update_agent` (`knowledge_base.py` lines 169-189): apply
the present keys, then emit `AGENT_MOVED` whenever the keyword set contains
`position` (whether or not it differs from the previous position), and
`AGENT_IDLE` whenever it contains `status` with value `idle` (whether or not
the agent was already idle). -/
def KB.updateAgent (kb : KB) (aid : String) (u : AgentUpdate) : KB :=
  if kb.agents.any (fun a => a.agent_id = aid) then
    let kb1 := { kb with agents := setAgent kb.agents aid (applyAgentUpdate · u) }
    let kb2 := match u.uposition with
      | some p => kb1.emitEvent (agentMovedEvent aid p)
      | none => kb1
    match u.ustatus with
    | some s => if s = "idle" then kb2.emitEvent (agentIdleEvent aid) else kb2
    | none => kb2
  else kb

/-- A `**updates` keyword set for `update_task`.  The `failure_count` and
`last_failure_at` keys are included because callers pass them, even though
`TaskState` declares no such attributes. -/
structure TaskUpdate where
  tstatus : Option String
  tassigned_agent_id : Option (Option String)
  tassigned_at : Option (Option Int)
  tcompleted_at : Option (Option Int)
  tfailure_count : Option Int
  tlast_failure_at : Option Int
deriving Repr

/-- The empty keyword set. -/
def noTaskUpdate : TaskUpdate :=
  { tstatus := none, tassigned_agent_id := none, tassigned_at := none,
    tcompleted_at := none, tfailure_count := none, tlast_failure_at := none }

/-- Apply the present keys of a task update, each guarded by
`hasattr(task, key)` as in the source: the `failure_count` and
`last_failure_at` keys fail the guard (they are not in `taskStateAttrs`)
and are silently dropped. -/
def applyTaskUpdate (t : TaskState) (u : TaskUpdate) : TaskState :=
  let t1 := if hasattrTask "status" then
    { t with status := u.tstatus.getD t.status } else t
  let t2 := if hasattrTask "assigned_agent_id" then
    { t1 with assigned_agent_id := u.tassigned_agent_id.getD t1.assigned_agent_id } else t1
  let t3 := if hasattrTask "assigned_at" then
    { t2 with assigned_at := u.tassigned_at.getD t2.assigned_at } else t2
  let t4 := if hasattrTask "completed_at" then
    { t3 with completed_at := u.tcompleted_at.getD t3.completed_at } else t3
  -- `failure_count`: hasattr is false, the key is dropped.
  let t5 := if hasattrTask "failure_count" then t4 else t4
  -- `last_failure_at`: hasattr is false, the key is dropped.
  if hasattrTask "last_failure_at" then t5 else t5

/-- Update the (unique) task with the given id, in place. -/
def setTask (ts : List TaskState) (tid : String)
    (f : TaskState → TaskState) : List TaskState :=
  ts.map (fun t => if t.task_id = tid then f t else t)

/-- The `KnowledgeBase.update_task` (`knowledge_base.py` lines 227-254): apply
the filtered keys, then emit on genuine status transitions. -/
def KB.updateTask (kb : KB) (tid : String) (u : TaskUpdate) : KB :=
  match kb.tasks.find? (fun t => t.task_id = tid) with
  | none => kb
  | some t0 =>
    let t1 := applyTaskUpdate t0 u
    let kb1 := { kb with tasks := setTask kb.tasks tid (applyTaskUpdate · u) }
    match u.tstatus with
    | some s =>
      if s ≠ t0.status then
        if s = "assigned" then
          kb1.emitEvent { etype := .taskAssigned, agentId := t1.assigned_agent_id,
                          taskId := some tid, epos := none }
        else if s = "completed" then
          kb1.emitEvent { etype := .taskCompleted, agentId := t1.assigned_agent_id,
                          taskId := some tid, epos := none }
        else if s = "failed" then
          kb1.emitEvent { etype := .taskFailed, agentId := t1.assigned_agent_id,
                          taskId := some tid, epos := none }
        else kb1
      else kb1
    | none => kb1

/-! ## Pending-task ordering (`KnowledgeBase.get_pending_tasks`, lines 266-273) -/

/-- The `priority_order.get(t.priority, 99)`. -/
def prioRank (p : String) : Int :=
  if p = "critical" then 0
  else if p = "high" then 1
  else if p = "medium" then 2
  else if p = "low" then 3
  else 99

/-- The Python sort key `(priority_order.get(t.priority, 99), -t.infestation_level)`. -/
def sortKey (t : TaskState) : Int × Int := (prioRank t.priority, -t.infestation_level)

/-- Lexicographic order on key pairs, as Python compares tuples. -/
def lexLe (p q : Int × Int) : Prop := p.1 < q.1 ∨ (p.1 = q.1 ∧ p.2 ≤ q.2)

instance : DecidableRel lexLe := fun p q => by
  unfold lexLe; exact inferInstance

/-- The comparison used by `tasks.sort(key=...)`. -/
def taskLe (a b : TaskState) : Prop := lexLe (sortKey a) (sortKey b)

instance : DecidableRel taskLe := fun a b => by
  unfold taskLe; exact inferInstance

instance : IsTotal TaskState taskLe where
  total a b := by
    unfold taskLe lexLe
    rcases lt_trichotomy (sortKey a).1 (sortKey b).1 with h | h | h
    · exact Or.inl (Or.inl h)
    · rcases le_total (sortKey a).2 (sortKey b).2 with h2 | h2
      · exact Or.inl (Or.inr ⟨h, h2⟩)
      · exact Or.inr (Or.inr ⟨h.symm, h2⟩)
    · exact Or.inr (Or.inl h)

instance : IsTrans TaskState taskLe where
  trans a b c hab hbc := by
    unfold taskLe lexLe at *
    rcases hab with h1 | ⟨e1, l1⟩
    · rcases hbc with h2 | ⟨e2, _⟩
      · exact Or.inl (h1.trans h2)
      · exact Or.inl (e2 ▸ h1)
    · rcases hbc with h2 | ⟨e2, l2⟩
      · exact Or.inl (e1 ▸ h2)
      · exact Or.inr ⟨e1.trans e2, l1.trans l2⟩

/-- The `KnowledgeBase.get_pending_tasks`: filter the registry (dict values in
insertion order) to status `pending`, then sort by the key above.  Python's
`list.sort` is stable; `List.insertionSort` with a non-strict total order is
the standard stable model of it. -/
def KB.getPendingTasks (kb : KB) : List TaskState :=
  List.insertionSort taskLe (kb.tasks.filter (fun t => t.status = "pending"))

/-! ## TaskAllocatorKS (`knowledge_sources/task_allocator.py`) -/

/-- The filtering loop of `TaskAllocatorKS._get_assignable_tasks`
(lines 50-83).  Each iteration first reads `task.failure_count`, which raises
`AttributeError` because `TaskState` declares no such field; the cooldown
logic below that read is therefore dead code, embedded for completeness
(`now` is the current timestamp, cooldowns of 5 and 15 seconds). -/
def assignableLoop (now : Int) : List TaskState → Except PyErr (List TaskState)
  | [] => .ok []
  | t :: ts =>
    match t.readFailureCount with
    | .error e => .error e
    | .ok fc =>
      if 5 ≤ fc then assignableLoop now ts
      else
        match t.readLastFailureAt with
        | .error e => .error e
        | .ok lfa =>
          let cd1 : Bool := match lfa with
            | some lt => decide (now - lt < 5)
            | none => false
          if cd1 then assignableLoop now ts
          else
            let cd2 : Bool := decide (3 ≤ fc) &&
              (match lfa with
               | some lt => decide (now - lt < 15)
               | none => false)
            if cd2 then assignableLoop now ts
            else
              match assignableLoop now ts with
              | .error e => .error e
              | .ok rest => .ok (t :: rest)

/-- The `TaskAllocatorKS._get_assignable_tasks`. -/
def getAssignableTasks (now : Int) (kb : KB) : Except PyErr (List TaskState) :=
  assignableLoop now kb.getPendingTasks

/-- The `TaskAllocatorKS.check_preconditions` (lines 42-48): both the idle list
and the assignable list are computed before the conjunction, so an exception
from the latter escapes `check_preconditions`. -/
def taskAllocatorCheckPre (now : Int) (kb : KB) : Except PyErr Bool :=
  let idle := kb.getIdleAgents (some "fumigator")
  match getAssignableTasks now kb with
  | .error e => .error e
  | .ok pend => .ok (decide (0 < idle.length) && decide (0 < pend.length))

/-- The `samples = max(1, int(manhattan_dist / 2))`. -/
def sampleCount (s e : Pos) : Nat := max 1 ((manhattan s e).toNat / 2)

/-- The i-th sample point on the straight segment:
`t = i / samples`, `x = int(x0 + (x1 - x0) * t)`, likewise for `z`. -/
def samplePoint (s e : Pos) (i n : Nat) : Pos :=
  let t : ℚ := (i : ℚ) / (n : ℚ)
  (pyInt ((s.1 : ℚ) + ((e.1 - s.1 : Int) : ℚ) * t),
   pyInt ((s.2 : ℚ) + ((e.2 - s.2 : Int) : ℚ) * t))

/-- The `TaskAllocatorKS._estimate_pesticide_needed` (lines 341-401): destination
infestation plus every sampled en-route Field cell with infestation ≥ 10,
times the 1.05 margin (= 21/20, exactly), truncated to int. -/
def estimatePesticideNeeded (s e : Pos) (grid infGrid : List (List Int))
    (destInf : Int) : Int :=
  let n := sampleCount s e
  let total := (List.range (n + 1)).foldl (fun acc i =>
    let p := samplePoint s e i n
    if p = s ∨ p = e then acc
    else
      match gridGet grid p.1 p.2 with
      | some tile =>
        if tile = tFIELD then
          match gridGet infGrid p.1 p.2 with
          | some inf => if 10 ≤ inf then acc + inf else acc
          | none => acc
        else acc
      | none => acc) destInf
  pyInt ((total : ℚ) * (21 / 20))

/-- The `TaskAllocatorKS._estimate_path_cost` (lines 286-339): Manhattan distance
times the average sampled per-cell weight (Road 1, Field 10 + dynamic weight,
other 1, out-of-bounds samples skipped). -/
def estimatePathCost (s e : Pos) (grid : List (List Int))
    (weights : List (Pos × ℚ)) : ℚ :=
  let n := sampleCount s e
  let total := (List.range (n + 1)).foldl (fun (acc : ℚ) i =>
    let p := samplePoint s e i n
    match gridGet grid p.1 p.2 with
    | some tile =>
      if tile = tROAD then acc + 1
      else if tile = tFIELD then acc + (10 + (assocGet weights p).getD 0)
      else acc + 1
    | none => acc) 0
  ((manhattan s e : Int) : ℚ) * (total / ((n : ℚ) + 1))

/-- The priority weights of `_calculate_cost_matrix` (default 2.0). -/
def priorityWeight (p : String) : ℚ :=
  if p = "critical" then 1 / 2
  else if p = "high" then 1
  else if p = "medium" then 2
  else if p = "low" then 4
  else 2

/-- One entry of the cost matrix of `_calculate_cost_matrix` (lines 211-284).
The float literal 1.2 is modelled as 6/5. -/
def assignCost (grid infGrid : List (List Int)) (weights : List (Pos × ℚ))
    (a : AgentState) (t : TaskState) : ℚ :=
  let pc := estimatePathCost a.position t.position grid weights
  let need := estimatePesticideNeeded a.position t.position grid infGrid
    t.infestation_level
  let pen : ℚ :=
    if a.pesticide_level < need then 50000
    else if (a.pesticide_level : ℚ) < (need : ℚ) * (6 / 5) then 1000
    else 0
  pc * priorityWeight t.priority + pen

/-- The two pesticide guards inside the greedy loop of `_optimal_assignment`
(lines 180-196): a pair is skipped unless the agent's level covers the
estimate and the estimate with the 1.2 slack. -/
def pairOk (grid infGrid : List (List Int)) (a : AgentState) (t : TaskState) :
    Bool :=
  let need := estimatePesticideNeeded a.position t.position grid infGrid
    t.infestation_level
  decide (need ≤ a.pesticide_level) &&
    decide ((need : ℚ) * (6 / 5) ≤ (a.pesticide_level : ℚ))

/-- The `if cost < min_cost: min_cost, best = cost, pair` with `min_cost`
starting at infinity. -/
def considerPair (cost : ℚ) (key : String × String)
    (acc : Option (ℚ × (String × String))) : Option (ℚ × (String × String)) :=
  match acc with
  | none => some (cost, key)
  | some (mc, k0) => if cost < mc then some (cost, key) else some (mc, k0)

/-- Inner loop of `_optimal_assignment`: scan the tasks for one agent. -/
def scanTasks (grid infGrid : List (List Int)) (weights : List (Pos × ℚ))
    (a : AgentState) (availT : List String) :
    List TaskState → Option (ℚ × (String × String)) →
    Option (ℚ × (String × String))
  | [], acc => acc
  | t :: ts, acc =>
    let acc2 := if t.task_id ∈ availT && pairOk grid infGrid a t then
        considerPair (assignCost grid infGrid weights a t)
          (a.agent_id, t.task_id) acc
      else acc
    scanTasks grid infGrid weights a availT ts acc2

/-- Outer loop of `_optimal_assignment`: scan all (agent, task) pairs for the
minimum-cost feasible assignment. -/
def scanAgents (grid infGrid : List (List Int)) (weights : List (Pos × ℚ))
    (tasks : List TaskState) (availA availT : List String) :
    List AgentState → Option (ℚ × (String × String)) →
    Option (ℚ × (String × String))
  | [], acc => acc
  | a :: as_, acc =>
    let acc2 := if a.agent_id ∈ availA then
        scanTasks grid infGrid weights a availT tasks acc
      else acc
    scanAgents grid infGrid weights tasks availA availT as_ acc2

/-- The greedy `while available_agents and available_tasks` loop; the fuel is
bounded by the number of tasks, which strictly decreases each round. -/
def greedyAssign (grid infGrid : List (List Int)) (weights : List (Pos × ℚ))
    (agents : List AgentState) (tasks : List TaskState) :
    Nat → List String → List String → List (String × String) →
    List (String × String)
  | 0, _, _, acc => acc
  | fuel + 1, availA, availT, acc =>
    if availA.isEmpty || availT.isEmpty then acc
    else
      match scanAgents grid infGrid weights tasks availA availT agents none with
      | some (_, (aid, tid)) =>
        greedyAssign grid infGrid weights agents tasks
          fuel (availA.erase aid) (availT.erase tid)
          (acc ++ [(aid, tid)])
      | none => acc

/-- The `TaskAllocatorKS._optimal_assignment` (lines 133-209). -/
def optimalAssignment (grid infGrid : List (List Int))
    (weights : List (Pos × ℚ)) (agents : List AgentState)
    (tasks : List TaskState) : List (String × String) :=
  greedyAssign grid infGrid weights agents tasks tasks.length
    (agents.map (fun a => a.agent_id)) (tasks.map (fun t => t.task_id)) []

/-- Apply one assignment of `TaskAllocatorKS.execute` (lines 106-131):
task → assigned, agent → assigned with the task id, and an `execute_task`
command in the agent's mailbox. -/
def applyAssignment (now : Int) (kb : KB) (pr : String × String) : KB :=
  match kb.getAgent pr.1, kb.getTask pr.2 with
  | some _, some task =>
    let kb1 := kb.updateTask pr.2
      { noTaskUpdate with
        tstatus := some "assigned"
        tassigned_agent_id := some (some pr.1)
        tassigned_at := some (some now) }
    let kb2 := kb1.updateAgent pr.1
      { noAgentUpdate with
        ucurrent_task_id := some (some pr.2)
        ustatus := some "assigned" }
    kb2.setShared (.commandOf pr.1)
      (.cmd { action := "execute_task", task_id := some pr.2,
              task_position := some task.position, barn_position := none,
              urgent := false, cpath := none })
  | _, _ => kb

/-- The `TaskAllocatorKS.execute` (lines 85-131). -/
def taskAllocatorExec (now : Int) (kb : KB) : Except PyErr KB :=
  let idle := kb.getIdleAgents (some "fumigator")
  match getAssignableTasks now kb with
  | .error e => .error e
  | .ok pending =>
    if idle.isEmpty || pending.isEmpty then .ok kb
    else
      let avail := idle.filter (fun f => 10 ≤ f.pesticide_level)
      if avail.isEmpty then .ok kb
      else
        let asg := optimalAssignment kb.grid kb.infestation kb.fieldWeights
          avail pending
        .ok (asg.foldl (applyAssignment now) kb)

/-! ## ControlComponent (`control.py`) -/

/-- A knowledge source as seen by the scheduler: `check_preconditions` and
`execute`, either of which may raise. -/
structure KSSpec where
  ksname : String
  checkPre : KB → Except PyErr Bool
  run : KB → Except PyErr KB

/-- The activation loop of `ControlComponent.execute_cycle` (lines 104-124)
over the priority-sorted activation list: stop at the per-cycle cap of 10;
`check_preconditions()` is invoked OUTSIDE the `try`, so an exception there
propagates out of the cycle; `execute()` is inside `try/except`, so its
exception is logged and the remaining activations still run (without
incrementing the activation count). -/
def runActivationLoop : List KSSpec → Nat → KB → Except PyErr KB
  | [], _, kb => .ok kb
  | ks :: rest, count, kb =>
    if 10 ≤ count then .ok kb
    else
      match ks.checkPre kb with
      | .error e => .error e
      | .ok false => runActivationLoop rest count kb
      | .ok true =>
        match ks.run kb with
        | .ok kb2 => runActivationLoop rest (count + 1) kb2
        | .error _ => runActivationLoop rest count kb

/-- The `TaskAllocatorKS` as a schedulable source (timestamp fixed to `now`). -/
def taskAllocatorKS (now : Int) : KSSpec :=
  { ksname := "TaskAllocatorKS",
    checkPre := taskAllocatorCheckPre now,
    run := taskAllocatorExec now }

/-- The class names of the knowledge sources instantiated by
`ControlComponent.setup` (control.py lines 53-59).  `SimulationControllerKS`
is not among them. -/
def controlSetupKSNames : List String :=
  ["TaskPlannerKS", "TaskAllocatorKS", "ResourceManagerKS", "PathPlannerKS",
   "ConflictResolverKS"]

/-! ## ResourceManagerKS (`knowledge_sources/resource_manager.py`) -/

/-- The `_find_nearest_barn`: first barn, then strictly closer ones win. -/
def findNearestBarn (pos : Pos) : List Pos → Option Pos
  | [] => none
  | b :: bs =>
    some (bs.foldl
      (fun best c => if manhattan pos c < manhattan pos best then c else best) b)

/-- The `ResourceManagerKS._trigger_refill` (lines 71-104): no-op when no barn
exists; otherwise set the agent returning to barn, write the
`refill_pesticide` command, and emit `AGENT_LOW_RESOURCE`. -/
def triggerRefill (kb : KB) (f : AgentState) (urgent : Bool) : KB :=
  match findNearestBarn f.position kb.barnPositions with
  | none => kb
  | some barn =>
    let kb1 := kb.updateAgent f.agent_id
      { noAgentUpdate with ustatus := some "returning_to_barn" }
    let kb2 := kb1.setShared (.commandOf f.agent_id)
      (.cmd { action := "refill_pesticide", task_id := none,
              task_position := none, barn_position := some barn,
              urgent := urgent, cpath := none })
    kb2.emitEvent { etype := .agentLowResource, agentId := some f.agent_id,
                    taskId := none, epos := none }

/-- The `ResourceManagerKS._cancel_task_and_refill` (lines 106-122). -/
def cancelTaskAndRefill (kb : KB) (f : AgentState) (task : TaskState) : KB :=
  let kb1 := kb.updateTask task.task_id
    { noTaskUpdate with
      tstatus := some "pending"
      tassigned_agent_id := some none }
  let kb2 := kb1.updateAgent f.agent_id
    { noAgentUpdate with ucurrent_task_id := some none }
  triggerRefill kb2 f true

/-- One iteration of `ResourceManagerKS.execute` (lines 50-69) for one
fumigator: critical level (≤ 10) forces an urgent refill; low level (< 100)
refills when idle or completed; then a held task whose infestation exceeds
the remaining level is cancelled with an urgent refill. -/
def rmProcessAgent (kb : KB) (f : AgentState) : KB :=
  let kb1 :=
    if f.pesticide_level ≤ 10 then triggerRefill kb f true
    else if f.pesticide_level < 100 then
      (if f.status = "idle" ∨ f.status = "completed" then triggerRefill kb f false
       else kb)
    else kb
  match f.current_task_id with
  | some tid =>
    match kb1.getTask tid with
    | some task =>
      if f.pesticide_level < task.infestation_level then
        cancelTaskAndRefill kb1 f task
      else kb1
    | none => kb1
  | none => kb1

/-- The `ResourceManagerKS.execute`: the fumigator list is captured once, then
each fumigator is processed in order. -/
def resourceManagerExec (kb : KB) : KB :=
  (kb.getAgentsByType "fumigator").foldl rmProcessAgent kb

/-! ## Simulation runner termination check (`simulation/runner.py` lines 148-184) -/

/-- The `stats['pending_tasks']` from `KnowledgeBase.get_statistics`: only tasks
whose status is exactly `pending` are counted. -/
def statsPendingTasks (kb : KB) : Nat :=
  (kb.tasks.filter (fun t => t.status = "pending")).length

/-- Python truthiness of `get_shared('simulation_ready_to_complete')`:
`None` (absent) is falsy, a stored flag has its value, any other stored
object is truthy. -/
def sharedTruthy (kb : KB) (k : SharedKey) : Bool :=
  match kb.getShared k with
  | none => false
  | some (.flag b) => b
  | some (.cmd _) => true

/-- The runner's `all_agents_at_barn` verification (lines 159-172): when the
barn list is empty the `if barn_positions:` guard skips the loop and the
flag stays `True`; otherwise every registered agent must be positioned on a
barn cell and be idle / returning / refilling. -/
def runnerAllAtBarn (kb : KB) : Bool :=
  match kb.barnPositions with
  | [] => true
  | _ :: _ =>
    kb.agents.all (fun a =>
      decide (a.position ∈ kb.barnPositions) &&
      (a.status = "idle" || a.status = "returning_to_barn" ||
       a.status = "refilling"))

/-- Condition of the runner's first (positional) termination branch
(line 158). -/
def runnerReadyCond (kb : KB) (steps : Nat) : Bool :=
  statsPendingTasks kb = 0 && sharedTruthy kb .simReady && decide (50 < steps)

/-- The positional branch breaks iff its condition holds and the barn
verification passes (lines 158-176). -/
def runnerPositionalBreak (kb : KB) (steps : Nat) : Bool :=
  runnerReadyCond kb steps && runnerAllAtBarn kb

/-- The fallback branch (lines 178-184, the `elif`): reached only when the
positional condition is false; it checks zero pending tasks, more than 50
steps, and that every agent is idle — with no positional check at all. -/
def runnerFallbackBreak (kb : KB) (steps : Nat) : Bool :=
  !runnerReadyCond kb steps && statsPendingTasks kb = 0 &&
    decide (50 < steps) &&
    decide ((kb.getIdleAgents none).length = kb.agents.length)

/-- The loop breaks with the completion message iff one of the two branches
fires. -/
def runnerBreak (kb : KB) (steps : Nat) : Bool :=
  runnerPositionalBreak kb steps || runnerFallbackBreak kb steps

/-! ## ConflictResolverKS (`knowledge_sources/conflict_resolver.py`) -/

/-- The comprehension
`[t for t in failed_tasks if t.failure_count < 5]` (line 92): the first
element's `failure_count` read raises. -/
def filterProcessableFailed : List TaskState → Except PyErr (List TaskState)
  | [] => .ok []
  | t :: ts =>
    match t.readFailureCount with
    | .error e => .error e
    | .ok fc =>
      match filterProcessableFailed ts with
      | .error e => .error e
      | .ok rest => .ok (if fc < 5 then t :: rest else rest)

/-- The recycling loop of `_handle_failed_tasks` (lines 94-121), embedded for
completeness: it re-reads `failure_count` and either permanently fails or
recycles the task (both updates pass `failure_count` / `last_failure_at`
keys, which `update_task` drops). -/
def recycleFailedLoop (now : Int) : List TaskState → KB → KB × Option PyErr
  | [], kb => (kb, none)
  | t :: ts, kb =>
    match t.readFailureCount with
    | .error e => (kb, some e)
    | .ok fc =>
      let fc1 := fc + 1
      let upd : TaskUpdate :=
        if 5 ≤ fc1 then
          { noTaskUpdate with
            tstatus := some "failed"
            tassigned_agent_id := some none
            tfailure_count := some fc1
            tlast_failure_at := some now }
        else
          { noTaskUpdate with
            tstatus := some "pending"
            tassigned_agent_id := some none
            tfailure_count := some fc1
            tlast_failure_at := some now }
      recycleFailedLoop now ts (kb.updateTask t.task_id upd)

/-- The `ConflictResolverKS._handle_failed_tasks` (lines 86-121). -/
def handleFailedTasks (now : Int) (kb : KB) : KB × Option PyErr :=
  match filterProcessableFailed (kb.getTasksByStatus "failed") with
  | .error e => (kb, some e)
  | .ok processable => recycleFailedLoop now processable kb

/-- The `ConflictResolverKS._force_reset_agent` (lines 452-491).  The local
variable `agent` aliases the stored `AgentState` object, which
`update_agent(..., current_task_id=None, ...)` has just mutated; the
subsequent `if agent.current_task_id:` therefore reads the freshly cleared
value, so the task-release branch is dead code.  Had it been reachable, its
first statement reads `task.failure_count`, which raises. -/
def forceResetAgent (kb : KB) (aid : String) : KB × Option PyErr :=
  match kb.getAgent aid with
  | none => (kb, none)
  | some _agent =>
    let kb1 := kb.updateAgent aid
      { noAgentUpdate with
        ustatus := some "idle"
        ucurrent_task_id := some none
        upath := some []
        upath_index := some 0 }
    let kb2 := kb1.deleteShared (.commandOf aid)
    -- (the position-history / attempt-counter dictionaries are KS-internal)
    match (kb2.getAgent aid).bind (fun a => a.current_task_id) with
    | none => (kb2, none)
    | some tid =>
      match kb2.getTask tid with
      | none => (kb2, none)
      | some _task => (kb2, some (.attributeError "failure_count"))

/-! ## Dynamic field weights (`fumigator_agent.py` lines 549-574 and
`world/pathfinding.py`) -/

/-- The weight step of `FumigatorAgent._update_field_weight`: first traversal
sets 1.5, later traversals multiply by 1.5, capped at 100.  (1.5 and all the
products reached before the cap are exact in binary64, so ℚ is faithful.) -/
def nextFieldWeight (w : ℚ) : ℚ :=
  let nw := if 0 < w then w * (3 / 2) else 3 / 2
  if 100 < nw then 100 else nw

/-- The weight of a cell after `n` traversals, starting from the default 0. -/
def weightAfter : Nat → ℚ
  | 0 => 0
  | n + 1 => nextFieldWeight (weightAfter n)

/-- The `FumigatorAgent._update_field_weight` on the knowledge base: only Field
cells are touched; Road and Barn cells are left unchanged. -/
def updateFieldWeightOnTraversal (kb : KB) (p : Pos) : KB :=
  if gridGet kb.grid p.1 p.2 = some tFIELD then
    kb.updateFieldWeight p.1 p.2 (nextFieldWeight (kb.getFieldWeight p.1 p.2))
  else kb

/-- The `Pathfinder._get_cost` (`pathfinding.py` lines 93-122): Road and Barn
cost 1, Field costs 10 (or 1 when roads are not preferred), out-of-bounds
and impassable cells cost infinity (`none`). -/
def pfGetCost (grid : List (List Int)) (width height : Int) (x z : Int)
    (preferRoads : Bool) : Option ℚ :=
  if 0 ≤ x ∧ x < width ∧ 0 ≤ z ∧ z < height then
    match gridGet grid x z with
    | some tile =>
      if tile = tROAD then some 1
      else if tile = tFIELD then some (if preferRoads then 10 else 1)
      else if tile = tBARN then some 1
      else none
    | none => none
  else none

/-- The `DynamicPathfinder._get_cost` (lines 1098-1119): the base cost plus, for
Field cells only, the dynamic weight clamped once more at 100. -/
def dynGetCost (grid : List (List Int)) (width height : Int)
    (weights : List (Pos × ℚ)) (x z : Int) (preferRoads : Bool) : Option ℚ :=
  let base := pfGetCost grid width height x z preferRoads
  if gridGet grid x z = some tFIELD then
    base.map (fun b => b + min ((assocGet weights (x, z)).getD 0) 100)
  else base

/-! ## PathPlannerKS (`knowledge_sources/path_planner.py`) -/

/-- The state of `PathPlannerKS`: the `processed_assignments` cache (keys are
the `(agent_id, task_id)` payload of the event, either of which may be
absent) together with the knowledge base it acts on. -/
structure PPState where
  processed : List (Option String × Option String)
  ppkb : KB
deriving DecidableEq, Repr

/-- One iteration of the loop of `PathPlannerKS.execute` (lines 53-92) for
one `TASK_ASSIGNED` event.  `calc` stands for `_calculate_path` (Dijkstra
over the dynamic weights); the claim settled about this loop holds for every
path function, so it is passed as a parameter.  A cached key is skipped
entirely; a missing agent or task is skipped *without* caching the key; an
empty path caches the key without writing anything. -/
def ppStep (calcPath : Pos → Pos → String → List Pos) (st : PPState) (ev : Event) :
    PPState :=
  let key := (ev.agentId, ev.taskId)
  if key ∈ st.processed then st
  else
    match ev.agentId.bind st.ppkb.getAgent, ev.taskId.bind st.ppkb.getTask with
    | some agent, some task =>
      let path := calcPath agent.position task.position agent.agent_type
      let kb1 :=
        if path.isEmpty then st.ppkb
        else
          let kbA := st.ppkb.updateAgent agent.agent_id
            { noAgentUpdate with upath := some path, upath_index := some 0 }
          let kbB :=
            match kbA.getShared (.commandOf agent.agent_id) with
            | some (.cmd c) =>
              kbA.setShared (.commandOf agent.agent_id)
                (.cmd { c with cpath := some path })
            | _ => kbA
          kbB.emitEvent { etype := .pathCalculated, agentId := ev.agentId,
                          taskId := ev.taskId, epos := none }
      { processed := st.processed ++ [key], ppkb := kb1 }
    | _, _ => st

/-- The `PathPlannerKS.execute`: the last 20 `TASK_ASSIGNED` events are captured
once, then processed in order. -/
def ppExecute (calcPath : Pos → Pos → String → List Pos) (st : PPState) : PPState :=
  (st.ppkb.getRecentEvents (some .taskAssigned) 20).foldl (ppStep calcPath) st

/-! ## FumigatorAgent en-route fumigation (`fumigator_agent.py` lines 156-207) -/

/-- The agent-side attributes of a `FumigatorAgent` read or written by
`_fumigate_all_possible_in_path`. -/
structure FumSelf where
  fid : String
  fposition : Pos
  fpesticide_level : Int
  ffields_fumigated : Int
  fcurrent_task_id : Option String
deriving DecidableEq, Repr

/-- The pesticide needed for the remaining path cells: every Field cell of
`path[path_index:]` whose infestation is at least 10 (lines 167-182). -/
def remainingPathPesticide (kb : KB) (ags : AgentState) : Int :=
  let remaining :=
    if ags.path_index < ags.path.length then ags.path.drop ags.path_index
    else []
  remaining.foldl (fun acc p =>
    if gridGet kb.grid p.1 p.2 = some tFIELD then
      let inf := kb.getInfestation p.1 p.2
      if 10 ≤ inf then acc + inf else acc
    else acc) 0

/-- The `FumigatorAgent._fumigate_all_possible_in_path` (lines 156-207).  When
the remaining-path total exceeds the level it returns `False`; otherwise, if
the current cell has infestation ≥ 10 and the level covers it, the cell is
fumigated (infestation zeroed, level spent, counter bumped) and the next
statement calls `kb.get_task_by_position(x, z)` — a method the
`KnowledgeBase` class does not define (see `kbMethodNames`), raising
`AttributeError` after those mutations. -/
def fumigateAllPossibleInPath (kb : KB) (sf : FumSelf) :
    (KB × FumSelf) × Except PyErr Bool :=
  match kb.getAgent sf.fid with
  | none => ((kb, sf), .ok true)
  | some ags =>
    if ags.path.isEmpty then ((kb, sf), .ok true)
    else
      let task := sf.fcurrent_task_id.bind kb.getTask
      let total := remainingPathPesticide kb ags +
        (match task with
         | some t => t.infestation_level
         | none => 0)
      if sf.fpesticide_level < total then ((kb, sf), .ok false)
      else
        let inf := kb.getInfestation sf.fposition.1 sf.fposition.2
        if 10 ≤ inf ∧ inf ≤ sf.fpesticide_level then
          let kb2 := kb.updateInfestation sf.fposition.1 sf.fposition.2 0
          let sf2 := { sf with
            fpesticide_level := sf.fpesticide_level - inf
            ffields_fumigated := sf.ffields_fumigated + 1 }
          ((kb2, sf2), .error (.attributeError "get_task_by_position"))
        else ((kb, sf), .ok true)

/-! ## Concrete states used to instantiate the theorems -/

/-- A fumigator/scout agent record with default counters. -/
def mkAgent (aid ty : String) (pos : Pos) (st : String) (lvl : Int) :
    AgentState :=
  { agent_id := aid, agent_type := ty, position := pos, status := st,
    pesticide_level := lvl, pesticide_capacity := 1000,
    current_task_id := none, fields_analyzed := 0, tasks_completed := 0,
    fields_fumigated := 0, path := [], path_index := 0 }

/-- A task record with default optional fields. -/
def mkTask (tid : String) (pos : Pos) (inf : Int) (prio st : String)
    (created : Int) : TaskState :=
  { task_id := tid, position := pos, infestation_level := inf,
    priority := prio, status := st, assigned_agent_id := none,
    created_at := created, assigned_at := none, completed_at := none }

/-- An empty knowledge base. -/
def emptyKB : KB :=
  { width := 0, height := 0, grid := [], infestation := [],
    fieldWeights := [], barnPositions := [], agents := [], tasks := [],
    events := [], shared := [] }

/-- One pending task and one idle fumigator: the state on which
`TaskAllocatorKS.check_preconditions` raises. -/
def kbC1 : KB :=
  { emptyKB with
    agents := [mkAgent "f1" "fumigator" (0, 0) "idle" 500]
    tasks := [mkTask "t1" (1, 1) 50 "high" "pending" 0] }

/-- A synthetic knowledge source whose `execute` raises (used to instantiate
the caught-at-the-boundary half of the C1 theorem). -/
def ksRunErrC1 : KSSpec :=
  { ksname := "RaisingKS",
    checkPre := fun _ => .ok true,
    run := fun _ => .error (.attributeError "boom") }

/-- A knowledge base holding one failed task. -/
def kbC2 : KB :=
  { emptyKB with tasks := [mkTask "t2" (2, 2) 30 "medium" "failed" 0] }

/-- Fallback-branch state: no pending task, the single agent idle but away
from the barn, one task still `assigned`. -/
def kbC3 : KB :=
  { emptyKB with
    agents := [mkAgent "f1" "fumigator" (0, 0) "idle" 500]
    tasks := [{ mkTask "t1" (3, 3) 40 "high" "assigned" 0 with
                assigned_agent_id := some "f1" }]
    barnPositions := [(5, 5)] }

/-- The agent of the positional-branch witness state. -/
def agC3w : AgentState := mkAgent "f1" "fumigator" (5, 5) "idle" 500

/-- Positional-branch witness state: ready flag set, agent idle on the barn
cell. -/
def kbC3w : KB :=
  { emptyKB with
    agents := [agC3w]
    barnPositions := [(5, 5)]
    shared := [(.simReady, .flag true)] }

/-- A 1-cell-wide, 2-cell-tall road world. -/
def gridC4 : List (List Int) := [[tROAD], [tROAD]]

/-- Its infestation grid: level 50 at the task cell `(0, 1)`. -/
def infC4 : List (List Int) := [[0], [50]]

/-- Scenario B agent: idle fumigator with resource level 5. -/
def agC4 : AgentState := mkAgent "f1" "fumigator" (0, 0) "idle" 5

/-- Scenario B task: needs 50 (the 1.05 margin makes the estimate 52). -/
def tkC4 : TaskState := mkTask "t1" (0, 1) 50 "high" "pending" 0

/-- Scenario B knowledge base. -/
def kbC4 : KB :=
  { emptyKB with
    width := 1, height := 2, grid := gridC4, infestation := infC4
    barnPositions := [(0, 0)]
    agents := [agC4]
    tasks := [tkC4] }

/-- Deadlock-reset state: the agent to be force-reset holds task `t1`
(status `assigned`) and has a command in its mailbox. -/
def kbC5 : KB :=
  { emptyKB with
    agents := [{ mkAgent "f1" "fumigator" (1, 1) "executing_task" 500 with
                 current_task_id := some "t1"
                 path := [(2, 1)] }]
    tasks := [{ mkTask "t1" (3, 1) 40 "high" "assigned" 0 with
                assigned_agent_id := some "f1" }]
    shared := [(.commandOf "f1",
                .cmd { action := "execute_task", task_id := some "t1",
                       task_position := some (3, 1), barn_position := none,
                       urgent := false, cpath := none })] }

/-- A 1×1 world holding a single Field cell, used to instantiate the
dynamic-weight cost facts. -/
def kbC6 : KB :=
  { emptyKB with
    width := 1, height := 1, grid := [[tFIELD]]
    infestation := [[0]]
    fieldWeights := [((0, 0), (27 : ℚ) / 8)] }

/-- An agent already idle at `(2, 3)`. -/
def kbC7 : KB :=
  { emptyKB with agents := [mkAgent "f1" "fumigator" (2, 3) "idle" 500] }

/-- A report-style update carrying the agent's unchanged position and its
unchanged `idle` status (as `BaseAgent.report` sends every step). -/
def updC7 : AgentUpdate :=
  { noAgentUpdate with uposition := some (2, 3), ustatus := some "idle" }

/-- Pending task created later but inserted first. -/
def tC8a : TaskState := mkTask "a" (1, 0) 40 "high" "pending" 10

/-- Pending task created earlier but inserted second; same priority and same
infestation as `tC8a`. -/
def tC8b : TaskState := mkTask "b" (2, 0) 40 "high" "pending" 5

/-- Registry insertion order `[tC8a, tC8b]`. -/
def kbC8 : KB := { emptyKB with tasks := [tC8a, tC8b] }

/-- PathPlanner state whose single recent `TASK_ASSIGNED` event is already
in the `processed_assignments` cache. -/
def stC9 : PPState :=
  { processed := [(some "f1", some "t1")],
    ppkb := { emptyKB with
      agents := [mkAgent "f1" "fumigator" (0, 0) "assigned" 500]
      tasks := [mkTask "t1" (0, 1) 50 "high" "assigned" 0]
      events := [{ etype := .taskAssigned, agentId := some "f1",
                   taskId := some "t1", epos := none }] } }

/-- Counterexample state for the en-route fumigation claim: the agent stands
on a cell with infestation 10 and owns 10 units, but the remaining path
holds a level-90 Field cell, so the remaining-path guard returns `False`
before the fumigation branch. -/
def kbC10 : KB :=
  { emptyKB with
    width := 1, height := 2, grid := [[tFIELD], [tFIELD]]
    infestation := [[10], [90]]
    agents := [{ mkAgent "f1" "fumigator" (0, 0) "moving" 10 with
                 current_task_id := some "t1"
                 path := [(0, 0), (0, 1)]
                 path_index := 1 }]
    tasks := [{ mkTask "t1" (0, 1) 90 "critical" "assigned" 0 with
                assigned_agent_id := some "f1" }] }

/-- The fumigator self-state matching `kbC10`. -/
def sfC10 : FumSelf :=
  { fid := "f1", fposition := (0, 0), fpesticide_level := 10,
    ffields_fumigated := 0, fcurrent_task_id := some "t1" }

/-- Witness state where the en-route fumigation branch is reached: the only
pesticide demand is the current cell. -/
def kbC10w : KB :=
  { emptyKB with
    width := 1, height := 2, grid := [[tFIELD], [tFIELD]]
    infestation := [[10], [0]]
    agents := [{ mkAgent "f1" "fumigator" (0, 0) "moving" 10 with
                 current_task_id := some "t1"
                 path := [(0, 0), (0, 1)]
                 path_index := 1 }]
    tasks := [{ mkTask "t1" (0, 1) 0 "low" "assigned" 0 with
                assigned_agent_id := some "f1" }] }

/-- The fumigator self-state matching `kbC10w`. -/
def sfC10w : FumSelf :=
  { fid := "f1", fposition := (0, 0), fpesticide_level := 10,
    ffields_fumigated := 0, fcurrent_task_id := some "t1" }

/-- The action field of a mailbox entry, when it holds a command. -/
def sharedAction (v : Option SharedVal) : Option String :=
  match v with
  | some (.cmd c) => some c.action
  | _ => none

/-! ## Helper lemmas about the store primitives -/

theorem assocGet_set_self {κ α : Type} [DecidableEq κ]
    (m : List (κ × α)) (k : κ) (v : α) : assocGet (assocSet m k v) k = some v := by
  induction m with
  | nil => simp [assocSet, assocGet]
  | cons p ps ih =>
    by_cases h : p.1 = k
    · simp [assocSet, h, assocGet]
    · simp [assocSet, h, assocGet, ih]

theorem assocGet_set_ne {κ α : Type} [DecidableEq κ]
    (m : List (κ × α)) (k k2 : κ) (v : α) (h : k2 ≠ k) :
    assocGet (assocSet m k v) k2 = assocGet m k2 := by
  induction m with
  | nil => simp [assocSet, assocGet, Ne.symm h]
  | cons p ps ih =>
    by_cases hp : p.1 = k
    · have hk2 : ¬ k = k2 := fun he => h he.symm
      have hpk2 : ¬ p.1 = k2 := by rw [hp]; exact hk2
      simp [assocSet, hp, assocGet, hk2, hpk2]
    · by_cases hp2 : p.1 = k2
      · simp [assocSet, hp, assocGet, hp2, h]
      · simp [assocSet, hp, assocGet, hp2, ih]

theorem assocGet_del_self {κ α : Type} [DecidableEq κ]
    (m : List (κ × α)) (k : κ) : assocGet (assocDel m k) k = none := by
  induction m with
  | nil => rfl
  | cons p ps ih =>
    by_cases hp : p.1 = k
    · simpa [assocDel, hp] using ih
    · simpa [assocDel, hp, assocGet] using ih

theorem pushEvent_no_trim (evs : List Event) (e : Event)
    (h : evs.length + 1 ≤ 1000) : pushEvent evs e = evs ++ [e] := by
  unfold pushEvent
  rw [if_neg]
  simp
  omega

/-! ## Frame lemmas: which KB fields each mutator can touch -/

theorem emitEvent_frame (kb : KB) (e : Event) :
    (kb.emitEvent e).shared = kb.shared ∧ (kb.emitEvent e).tasks = kb.tasks ∧
    (kb.emitEvent e).agents = kb.agents ∧
    (kb.emitEvent e).barnPositions = kb.barnPositions ∧
    (kb.emitEvent e).grid = kb.grid ∧
    (kb.emitEvent e).infestation = kb.infestation ∧
    (kb.emitEvent e).fieldWeights = kb.fieldWeights ∧
    (kb.emitEvent e).width = kb.width ∧ (kb.emitEvent e).height = kb.height := by
  unfold KB.emitEvent
  exact ⟨rfl, rfl, rfl, rfl, rfl, rfl, rfl, rfl, rfl⟩

theorem updateAgent_frame (kb : KB) (aid : String) (u : AgentUpdate) :
    (kb.updateAgent aid u).shared = kb.shared ∧
    (kb.updateAgent aid u).tasks = kb.tasks ∧
    (kb.updateAgent aid u).barnPositions = kb.barnPositions ∧
    (kb.updateAgent aid u).grid = kb.grid ∧
    (kb.updateAgent aid u).infestation = kb.infestation ∧
    (kb.updateAgent aid u).fieldWeights = kb.fieldWeights ∧
    (kb.updateAgent aid u).width = kb.width ∧
    (kb.updateAgent aid u).height = kb.height := by
  unfold KB.updateAgent
  split
  · cases u.uposition <;> cases u.ustatus <;> dsimp only <;> (try split) <;>
      exact ⟨rfl, rfl, rfl, rfl, rfl, rfl, rfl, rfl⟩
  · exact ⟨rfl, rfl, rfl, rfl, rfl, rfl, rfl, rfl⟩

theorem updateTask_frame (kb : KB) (tid : String) (u : TaskUpdate) :
    (kb.updateTask tid u).shared = kb.shared ∧
    (kb.updateTask tid u).agents = kb.agents ∧
    (kb.updateTask tid u).barnPositions = kb.barnPositions ∧
    (kb.updateTask tid u).grid = kb.grid ∧
    (kb.updateTask tid u).infestation = kb.infestation ∧
    (kb.updateTask tid u).fieldWeights = kb.fieldWeights ∧
    (kb.updateTask tid u).width = kb.width ∧
    (kb.updateTask tid u).height = kb.height := by
  unfold KB.updateTask
  split
  · exact ⟨rfl, rfl, rfl, rfl, rfl, rfl, rfl, rfl⟩
  · cases u.tstatus
    · exact ⟨rfl, rfl, rfl, rfl, rfl, rfl, rfl, rfl⟩
    · repeat' split
      all_goals exact ⟨rfl, rfl, rfl, rfl, rfl, rfl, rfl, rfl⟩

theorem setShared_frame (kb : KB) (k : SharedKey) (v : SharedVal) :
    (kb.setShared k v).tasks = kb.tasks ∧ (kb.setShared k v).agents = kb.agents ∧
    (kb.setShared k v).barnPositions = kb.barnPositions ∧
    (kb.setShared k v).events = kb.events := by
  unfold KB.setShared
  exact ⟨rfl, rfl, rfl, rfl⟩

/-! ## C7: event emission of `update_agent` -/

/-- Claim C7 (corrected).  For a registered agent, `update_agent` appends an
`AgentMoved` event iff the partial update contains a `position` key — whether
or not the value differs from the previous position — and an `AgentIdle`
event iff it contains a `status` key with value `idle` — whether or not the
agent was already idle.  (The bound keeps the 1000-entry ring buffer from
trimming, so the appended suffix is visible as written.) -/
theorem c7_update_agent_events (kb : KB) (aid : String) (u : AgentUpdate)
    (hreg : kb.agents.any (fun a => a.agent_id = aid) = true)
    (hlen : kb.events.length + 2 ≤ 1000) :
    (kb.updateAgent aid u).events =
      kb.events ++
        (match u.uposition with
         | some p => [agentMovedEvent aid p]
         | none => []) ++
        (if u.ustatus = some "idle" then [agentIdleEvent aid] else []) := by
  have h1 : kb.events.length + 1 ≤ 1000 := by omega
  unfold KB.updateAgent
  simp only [hreg, if_true]
  cases hp : u.uposition with
  | none =>
    cases hs : u.ustatus with
    | none => simp
    | some s =>
      by_cases hid : s = "idle"
      · subst hid
        simp [KB.emitEvent, pushEvent_no_trim _ _ h1]
      · simp [hid, KB.emitEvent]
  | some p =>
    cases hs : u.ustatus with
    | none => simp [KB.emitEvent, pushEvent_no_trim _ _ h1]
    | some s =>
      by_cases hid : s = "idle"
      · subst hid
        have h2 : (kb.events ++ [agentMovedEvent aid p]).length + 1 ≤ 1000 := by
          simp
          omega
        simp [KB.emitEvent, pushEvent_no_trim _ _ h1, pushEvent_no_trim _ _ h2]
      · simp [hid, KB.emitEvent, pushEvent_no_trim _ _ h1]

/-- Claim C7 counterexample.  An agent idle at `(2, 3)` re-reports its unchanged
position and its unchanged `idle` status (as `BaseAgent.report` does every
step): an `AgentMoved` and an `AgentIdle` event are both emitted, refuting
the claim that they are emitted only on a change / transition. -/
theorem c7_counterexample :
    ((kbC7.updateAgent "f1" updC7).events =
      [agentMovedEvent "f1" (2, 3), agentIdleEvent "f1"]) ∧
    (kbC7.getAgent "f1").map (fun a => a.position) = some (2, 3) ∧
    (kbC7.getAgent "f1").map (fun a => a.status) = some "idle" :=
  ⟨rfl, rfl, rfl⟩

/-- Claim C7 witness: the amended theorem at the concrete state `kbC7`. -/
theorem c7_witness :
    (kbC7.updateAgent "f1" updC7).events =
      ([] : List Event) ++ [agentMovedEvent "f1" (2, 3)] ++
        [agentIdleEvent "f1"] := by
  have h := c7_update_agent_events kbC7 "f1" updC7 (by decide) (by decide)
  simpa [updC7, noAgentUpdate, kbC7, emptyKB] using h

/-! ## C1: the scheduler boundary of `execute_cycle` -/

/-- Claim C1 (corrected).  Within `ControlComponent.execute_cycle` the
`try/except` wraps only `ks.execute()`: an exception raised there is caught
and the remaining activations of the tick still run; but
`ks.check_preconditions()` is invoked outside the `try`, so an exception
raised there (e.g. `TaskAllocatorKS` reading `task.failure_count` on a
`TaskState`, which declares no such field) propagates out of
`execute_cycle`. -/
theorem c1_scheduler_boundary (ks : KSSpec) (rest : List KSSpec) (n : Nat)
    (kb : KB) (hn : n < 10) :
    (∀ e, ks.checkPre kb = .error e →
      runActivationLoop (ks :: rest) n kb = .error e) ∧
    (∀ e, ks.checkPre kb = .ok true → ks.run kb = .error e →
      runActivationLoop (ks :: rest) n kb = runActivationLoop rest n kb) := by
  constructor
  · intro e he
    conv_lhs => rw [runActivationLoop]
    rw [if_neg (by omega), he]
  · intro e hc hr
    conv_lhs => rw [runActivationLoop]
    rw [if_neg (by omega), hc, hr]

/-- Claim C1 counterexample.  On a state with one pending task and one idle
fumigator, `TaskAllocatorKS.check_preconditions` reads `task.failure_count`
and the resulting `AttributeError` propagates out of the activation loop —
the cycle does not continue past it, refuting the claim that
`execute_cycle` never propagates an exception raised inside a knowledge
source's `check_preconditions`. -/
theorem c1_counterexample :
    runActivationLoop [taskAllocatorKS 0] 0 kbC1 =
      .error (.attributeError "failure_count") := rfl

/-- Claim C1 witness: the amended theorem applied at `TaskAllocatorKS` on
`kbC1` (the propagating half) and at a raising `execute` (the caught half,
after which the loop proceeds with the rest of the tick). -/
theorem c1_witness :
    runActivationLoop [taskAllocatorKS 0, ksRunErrC1] 0 kbC1 =
      .error (.attributeError "failure_count") ∧
    runActivationLoop [ksRunErrC1] 0 emptyKB = runActivationLoop [] 0 emptyKB := by
  constructor
  · exact (c1_scheduler_boundary (taskAllocatorKS 0) [ksRunErrC1] 0 kbC1
      (by omega)).1 _ rfl
  · exact (c1_scheduler_boundary ksRunErrC1 [] 0 emptyKB
      (by omega)).2 (.attributeError "boom") rfl rfl

/-! ## C2: recycling of failed tasks -/

/-- Claim C2 (code bug).  Whenever a failed task exists, `_handle_failed_tasks`
raises `AttributeError` on the very first `task.failure_count` read (the
comprehension of line 92) and leaves the knowledge base untouched: no task
is recycled to `pending`, no failure count or failure timestamp is
persisted.  Moreover `hasattr` fails for both keys, so even the
`update_task(..., failure_count=..., last_failure_at=...)` calls the loop
would have made drop those keys. -/
theorem c2_handle_failed_raises (now : Int) (kb : KB)
    (h : kb.getTasksByStatus "failed" ≠ []) :
    handleFailedTasks now kb = (kb, some (.attributeError "failure_count")) ∧
    hasattrTask "failure_count" = false ∧
    hasattrTask "last_failure_at" = false := by
  refine ⟨?_, by decide, by decide⟩
  unfold handleFailedTasks
  cases hf : kb.getTasksByStatus "failed" with
  | nil => exact absurd hf h
  | cons t ts => rfl

/-- Claim C2 witness: the theorem at the concrete state `kbC2`, which holds one
failed task. -/
theorem c2_witness :
    handleFailedTasks 0 kbC2 = (kbC2, some (.attributeError "failure_count")) :=
  (c2_handle_failed_raises 0 kbC2 (by decide)).1

/-! ## C3: the termination check of the simulation runner -/

/-- Claim C3 (corrected).  The positional branch of the runner's termination
check does verify, for a world with at least one barn cell, that every
registered agent is physically positioned on a barn cell (and is
idle / returning / refilling); and `SimulationControllerKS` — the only
writer of the `simulation_ready_to_complete` flag that branch requires — is
not among the knowledge sources registered by `ControlComponent.setup`.
The loop can therefore only break through the fallback branch, which
performs no positional check (see the counterexample). -/
theorem c3_positional_branch (kb : KB) (steps : Nat)
    (hpos : runnerPositionalBreak kb steps = true)
    (hbarn : kb.barnPositions ≠ []) :
    (∀ a ∈ kb.agents, a.position ∈ kb.barnPositions) ∧
    "SimulationControllerKS" ∉ controlSetupKSNames := by
  refine ⟨?_, by decide⟩
  intro a ha
  unfold runnerPositionalBreak runnerAllAtBarn at hpos
  rw [Bool.and_eq_true] at hpos
  cases hb : kb.barnPositions with
  | nil => exact absurd hb hbarn
  | cons b bs =>
    rw [hb] at hpos
    have hall := hpos.2
    rw [List.all_eq_true] at hall
    have := hall a ha
    rw [Bool.and_eq_true] at this
    have hmem := of_decide_eq_true this.1
    exact hb ▸ hmem

/-- Claim C3 counterexample.  A state with no `pending` task (one task still
`assigned`), a single idle agent away from the barn, and 51 elapsed steps:
the fallback branch declares completion even though the agent is not on a
barn cell and a task is still in status `assigned` — refuting the claim
that completion is declared only with every agent on a depot cell and no
task pending / assigned / in progress. -/
theorem c3_counterexample :
    runnerBreak kbC3 51 = true ∧
    (∃ a ∈ kbC3.agents, a.position ∉ kbC3.barnPositions) ∧
    (∃ t ∈ kbC3.tasks, t.status = "assigned") := by
  refine ⟨by decide, ?_, ?_⟩
  · exact ⟨mkAgent "f1" "fumigator" (0, 0) "idle" 500, by decide, by decide⟩
  · refine ⟨{ mkTask "t1" (3, 3) 40 "high" "assigned" 0 with
      assigned_agent_id := some "f1" }, by decide, by decide⟩

/-- Claim C3 witness: the amended theorem at the concrete state `kbC3w`, whose
positional branch fires with the agent on the barn cell. -/
theorem c3_witness :
    agC3w.position ∈ kbC3w.barnPositions ∧
    "SimulationControllerKS" ∉ controlSetupKSNames :=
  ⟨(c3_positional_branch kbC3w 51 (by decide) (by decide)).1 agC3w (by decide),
   (c3_positional_branch kbC3w 51 (by decide) (by decide)).2⟩

/-! ## C5: breaking a bidirectional deadlock -/

/-- The `setAgent` commutes with the id-keyed lookup when the update preserves
the id. -/
theorem getAgent_setAgent (ags : List AgentState) (aid : String)
    (f : AgentState → AgentState) (hf : ∀ a, (f a).agent_id = a.agent_id) :
    (setAgent ags aid f).find? (fun a => a.agent_id = aid) =
      ((ags.find? (fun a => a.agent_id = aid)).map f) := by
  induction ags with
  | nil => rfl
  | cons a as_ ih =>
    show List.find? (fun x => x.agent_id = aid)
        ((if a.agent_id = aid then f a else a) :: setAgent as_ aid f) = _
    by_cases h : a.agent_id = aid
    · rw [if_pos h]
      rw [List.find?_cons_of_pos _ (by simp [hf, h]),
          List.find?_cons_of_pos _ (by simp [h])]
      rfl
    · rw [if_neg h]
      rw [List.find?_cons_of_neg _ (by simp [h]),
          List.find?_cons_of_neg _ (by simp [h])]
      exact ih

/-- The agent list after `update_agent` on a registered agent. -/
theorem updateAgent_agents (kb : KB) (aid : String) (u : AgentUpdate)
    (hany : kb.agents.any (fun a => a.agent_id = aid) = true) :
    (kb.updateAgent aid u).agents =
      setAgent kb.agents aid (applyAgentUpdate · u) := by
  unfold KB.updateAgent
  rw [if_pos hany]
  cases u.uposition <;> cases u.ustatus <;> dsimp only <;> (try split) <;>
    simp [KB.emitEvent]

/-- The `update_agent` transforms the looked-up agent pointwise. -/
theorem getAgent_updateAgent (kb : KB) (aid : String) (u : AgentUpdate) :
    (kb.updateAgent aid u).getAgent aid =
      (kb.getAgent aid).map (applyAgentUpdate · u) := by
  by_cases hany : kb.agents.any (fun a => a.agent_id = aid) = true
  · unfold KB.getAgent
    rw [updateAgent_agents kb aid u hany]
    exact getAgent_setAgent kb.agents aid _ (fun a => rfl)
  · have hnone : kb.getAgent aid = none := by
      unfold KB.getAgent
      rw [List.find?_eq_none]
      intro a ha
      by_contra hpa
      exact hany (List.any_eq_true.mpr ⟨a, ha, hpa⟩)
    have hsame : (kb.updateAgent aid u).agents = kb.agents := by
      unfold KB.updateAgent
      rw [if_neg (by simpa using hany)]
    unfold KB.getAgent at *
    rw [hsame, hnone]
    rfl

/-- Claim C5 (code bug).  `_force_reset_agent` does reset the chosen member of
the deadlock pair — status `idle`, path cleared, command cleared — but it
never releases that member's held task: the local `agent` variable aliases
the stored `AgentState` that `update_agent(..., current_task_id=None)` has
just mutated, so the `if agent.current_task_id:` release branch is dead
(and had it run, its first read `task.failure_count` would raise, the field
being undeclared).  Consequently the call returns without error and the
task registry is completely unchanged — the task is not set back to
`pending`. -/
theorem c5_force_reset_no_release (kb : KB) (aid : String)
    (hreg : (kb.getAgent aid).isSome = true) :
    (forceResetAgent kb aid).2 = none ∧
    (forceResetAgent kb aid).1.tasks = kb.tasks ∧
    (forceResetAgent kb aid).1.getShared (.commandOf aid) = none ∧
    (∀ a2 ∈ (forceResetAgent kb aid).1.agents, a2.agent_id = aid →
      a2.status = "idle" ∧ a2.path = [] ∧ a2.current_task_id = none) := by
  rcases ho : kb.getAgent aid with _ | ag
  · rw [ho] at hreg
    simp at hreg
  · have hany : kb.agents.any (fun a => a.agent_id = aid) = true := by
      have hmem : ag ∈ kb.agents := List.mem_of_find?_eq_some ho
      rcases List.find?_eq_some.mp ho with ⟨hpred, _⟩
      exact List.any_eq_true.mpr ⟨ag, hmem, hpred⟩
    have heval : forceResetAgent kb aid =
        ((kb.updateAgent aid
          { noAgentUpdate with
            ustatus := some "idle"
            ucurrent_task_id := some none
            upath := some []
            upath_index := some 0 }).deleteShared (.commandOf aid), none) := by
      unfold forceResetAgent
      rw [ho]
      dsimp only
      have hga : ((kb.updateAgent aid
          { noAgentUpdate with
            ustatus := some "idle"
            ucurrent_task_id := some none
            upath := some []
            upath_index := some 0 }).deleteShared
            (.commandOf aid)).getAgent aid =
          some (applyAgentUpdate ag
            { noAgentUpdate with
              ustatus := some "idle"
              ucurrent_task_id := some none
              upath := some []
              upath_index := some 0 }) := by
        have h2 := getAgent_updateAgent kb aid
          { noAgentUpdate with
            ustatus := some "idle"
            ucurrent_task_id := some none
            upath := some []
            upath_index := some 0 }
        rw [ho] at h2
        exact h2
      rw [hga]
      rfl
    rw [heval]
    refine ⟨rfl, ?_, ?_, ?_⟩
    · exact (updateAgent_frame kb aid _).2.1
    · exact assocGet_del_self _ _
    · intro a2 ha2 hida
      have hlist : ((kb.updateAgent aid
          { noAgentUpdate with
            ustatus := some "idle"
            ucurrent_task_id := some none
            upath := some []
            upath_index := some 0 }).deleteShared
            (.commandOf aid)).agents =
          setAgent kb.agents aid
            (applyAgentUpdate ·
              { noAgentUpdate with
                ustatus := some "idle"
                ucurrent_task_id := some none
                upath := some []
                upath_index := some 0 }) := updateAgent_agents kb aid _ hany
      rw [hlist] at ha2
      unfold setAgent at ha2
      rcases List.mem_map.mp ha2 with ⟨a0, _, heq⟩
      by_cases h0 : a0.agent_id = aid
      · rw [if_pos h0] at heq
        subst heq
        exact ⟨rfl, rfl, rfl⟩
      · rw [if_neg h0] at heq
        subst heq
        exact absurd hida h0

/-- Claim C5 witness: the theorem at the concrete deadlock-member state `kbC5`
(the reset agent holds task `t1`, which stays `assigned`). -/
theorem c5_witness :
    (forceResetAgent kbC5 "f1").2 = none ∧
    (forceResetAgent kbC5 "f1").1.tasks = kbC5.tasks ∧
    (forceResetAgent kbC5 "f1").1.getShared (.commandOf "f1") = none := by
  have h := c5_force_reset_no_release kbC5 "f1" (by decide)
  exact ⟨h.1, h.2.1, h.2.2.1⟩

/-! ## C9: idempotence of PathPlanner per cached assignment -/

/-- A cached `(agent_id, task_id)` pair is skipped entirely by the
processing loop. -/
theorem ppStep_cached (calcPath : Pos → Pos → String → List Pos)
    (st : PPState) (ev : Event)
    (h : (ev.agentId, ev.taskId) ∈ st.processed) :
    ppStep calcPath st ev = st := by
  unfold ppStep
  rw [if_pos h]

/-- Claim C9 (confirmed).  When every recent `TASK_ASSIGNED` event's
`(agent_id, task_id)` key is already in the `processed_assignments` cache —
in particular on any second execution for a pair processed by the first —
`PathPlannerKS.execute` is the identity on all observable state: no path is
recomputed (the statement holds for every path function `calcPath`), no
`PathCalculated` event is emitted, and neither the agent's `path` /
`path_index` nor its command mailbox is touched. -/
theorem c9_pathplanner_idempotent (calcPath : Pos → Pos → String → List Pos)
    (st : PPState)
    (h : ∀ ev ∈ st.ppkb.getRecentEvents (some .taskAssigned) 20,
      (ev.agentId, ev.taskId) ∈ st.processed) :
    ppExecute calcPath st = st := by
  unfold ppExecute
  have aux : ∀ evs : List Event,
      (∀ ev ∈ evs, (ev.agentId, ev.taskId) ∈ st.processed) →
      evs.foldl (ppStep calcPath) st = st := by
    intro evs
    induction evs with
    | nil => intro _; rfl
    | cons e es ih =>
      intro h2
      rw [List.foldl_cons, ppStep_cached calcPath st e (h2 e (by simp))]
      exact ih (fun ev hev => h2 ev (by simp [hev]))
  exact aux _ h

/-- Claim C9 witness: the theorem at the concrete state `stC9`, whose single
recent assignment event is already cached. -/
theorem c9_witness : ppExecute (fun _ _ _ => []) stC9 = stC9 :=
  c9_pathplanner_idempotent (fun _ _ _ => []) stC9 (by decide)

/-! ## C10: the en-route fumigation branch and the missing method -/

/-- Claim C10 (corrected).  Whenever the agent follows a non-empty path, its
pesticide level covers the estimated remaining-path demand (the guard the
branch checks first), and the current cell's infestation is at least 10 and
within the level, `_fumigate_all_possible_in_path` fumigates the cell and
then raises `AttributeError` on `kb.get_task_by_position(x, z)` — a method
the `KnowledgeBase` class does not define. -/
theorem c10_fumigate_raises (kb : KB) (sf : FumSelf) (ags : AgentState)
    (hag : kb.getAgent sf.fid = some ags)
    (hpath : ags.path.isEmpty = false)
    (htotal : remainingPathPesticide kb ags +
      (match sf.fcurrent_task_id.bind kb.getTask with
       | some t => t.infestation_level
       | none => 0) ≤ sf.fpesticide_level)
    (hinf : 10 ≤ kb.getInfestation sf.fposition.1 sf.fposition.2)
    (hlvl : kb.getInfestation sf.fposition.1 sf.fposition.2 ≤
      sf.fpesticide_level) :
    (fumigateAllPossibleInPath kb sf).2 =
      .error (.attributeError "get_task_by_position") ∧
    "get_task_by_position" ∉ kbMethodNames := by
  refine ⟨?_, by decide⟩
  unfold fumigateAllPossibleInPath
  rw [hag]
  dsimp only
  rw [if_neg (by simp [hpath])]
  rw [if_neg (by omega)]
  rw [if_pos ⟨hinf, hlvl⟩]

/-- Claim C10 counterexample.  The agent stands on a cell with infestation 10
holding 10 units (the hypotheses of the claim as stated), but a level-90
Field cell on the remaining path makes the branch return `False` before any
fumigation: no `AttributeError` is raised, refuting the claim as stated. -/
theorem c10_counterexample :
    fumigateAllPossibleInPath kbC10 sfC10 = ((kbC10, sfC10), .ok false) ∧
    kbC10.getInfestation 0 0 = 10 ∧
    sfC10.fpesticide_level = 10 ∧
    sfC10.fcurrent_task_id = some "t1" ∧
    (kbC10.getAgent "f1").map (fun a => a.path_index) = some 1 :=
  ⟨rfl, rfl, rfl, rfl, rfl⟩

/-- Claim C10 witness: the amended theorem at `kbC10w`, where the remaining
path is clean and the branch is reached: the call raises. -/
theorem c10_witness :
    (fumigateAllPossibleInPath kbC10w sfC10w).2 =
      .error (.attributeError "get_task_by_position") ∧
    "get_task_by_position" ∉ kbMethodNames := by
  refine c10_fumigate_raises kbC10w sfC10w
    ({ mkAgent "f1" "fumigator" (0, 0) "moving" 10 with
       current_task_id := some "t1"
       path := [(0, 0), (0, 1)]
       path_index := 1 }) rfl rfl (by decide) (by decide) (by decide)

/-! ## C6: dynamic field weights and traversal cost -/

/-- The weight of a Field cell after `n ≥ 1` traversals is exactly
`min (1.5 ^ n) 100`. -/
theorem weightAfter_min (n : Nat) (hn : 1 ≤ n) :
    weightAfter n = min ((3 / 2 : ℚ) ^ n) 100 := by
  induction n with
  | zero => exact absurd hn (by omega)
  | succ m ih =>
    by_cases hm : m = 0
    · subst hm
      show nextFieldWeight (weightAfter 0) = _
      norm_num [weightAfter, nextFieldWeight, min_def]
    · have ihm := ih (by omega)
      show nextFieldWeight (weightAfter m) = _
      rw [ihm]
      unfold nextFieldWeight
      by_cases hc : (3 / 2 : ℚ) ^ m ≤ 100
      · rw [min_eq_left hc]
        have hpos : 0 < (3 / 2 : ℚ) ^ m := pow_pos (by norm_num) m
        rw [if_pos hpos]
        have hmul : (3 / 2 : ℚ) ^ m * (3 / 2) = (3 / 2) ^ (m + 1) := by ring
        rw [hmul]
        by_cases hc2 : 100 < (3 / 2 : ℚ) ^ (m + 1)
        · rw [if_pos hc2, min_eq_right hc2.le]
        · rw [if_neg hc2, min_eq_left (not_lt.mp hc2)]
      · push_neg at hc
        rw [min_eq_right hc.le]
        rw [if_pos (by norm_num : (0 : ℚ) < 100)]
        rw [if_pos (by norm_num : (100 : ℚ) < 100 * (3 / 2))]
        have hstep : 100 < (3 / 2 : ℚ) ^ (m + 1) := by
          calc (100 : ℚ) < (3 / 2 : ℚ) ^ m := hc
          _ ≤ (3 / 2 : ℚ) ^ (m + 1) :=
              pow_le_pow_right₀ (by norm_num) (Nat.le_succ m)
        rw [min_eq_right hstep.le]

/-- Claim C6 (confirmed).  After `n ≥ 1` traversals of a Field cell the
dynamic weight equals `min (1.5 ^ n) 100` (so after 3 traversals it is
`1.5 × 1.5² = 3.375 = 27/8`); the pathfinder's per-cell cost of an
in-bounds Field cell is its base cost (10 when roads are preferred, else 1)
plus the weight clamped at 100 — a finite value, never infinity — and a
traversal of a Road or Barn cell neither sets a dynamic weight nor changes
that cell's cost from the base 1. -/
theorem c6_field_weight_cost (n : Nat) (hn : 1 ≤ n) (kb : KB) (p : Pos)
    (pr : Bool)
    (hb : 0 ≤ p.1 ∧ p.1 < kb.width ∧ 0 ≤ p.2 ∧ p.2 < kb.height) :
    weightAfter n = min ((3 / 2 : ℚ) ^ n) 100 ∧
    weightAfter 3 = 27 / 8 ∧
    (gridGet kb.grid p.1 p.2 = some tFIELD →
      dynGetCost kb.grid kb.width kb.height kb.fieldWeights p.1 p.2 pr =
        some ((if pr then 10 else 1) +
          min (kb.getFieldWeight p.1 p.2) 100)) ∧
    ((gridGet kb.grid p.1 p.2 = some tROAD ∨
      gridGet kb.grid p.1 p.2 = some tBARN) →
      updateFieldWeightOnTraversal kb p = kb ∧
      dynGetCost kb.grid kb.width kb.height kb.fieldWeights p.1 p.2 pr =
        some 1) := by
  refine ⟨weightAfter_min n hn, by norm_num [weightAfter, nextFieldWeight],
    ?_, ?_⟩
  · intro hf
    unfold dynGetCost
    rw [hf, if_pos rfl]
    unfold pfGetCost
    rw [if_pos hb, hf]
    norm_num [tROAD, tFIELD, KB.getFieldWeight]
  · intro hrb
    have hne : gridGet kb.grid p.1 p.2 ≠ some tFIELD := by
      rcases hrb with h | h <;> rw [h] <;> simp [tROAD, tBARN, tFIELD]
    constructor
    · unfold updateFieldWeightOnTraversal
      rw [if_neg hne]
    · unfold dynGetCost
      rw [if_neg hne]
      unfold pfGetCost
      rw [if_pos hb]
      rcases hrb with h | h <;> rw [h] <;>
        norm_num [tROAD, tBARN, tFIELD]

/-- Claim C6 witness: the theorem at `n = 3` on the concrete one-Field world
`kbC6`, whose stored weight is the three-traversal value `27/8 = 3.375`. -/
theorem c6_witness :
    weightAfter 3 = 27 / 8 ∧
    dynGetCost kbC6.grid kbC6.width kbC6.height kbC6.fieldWeights 0 0 true =
      some (10 + min ((27 : ℚ) / 8) 100) := by
  have h := c6_field_weight_cost 3 (by omega) kbC6 (0, 0) true
    (by constructor <;> norm_num [kbC6, emptyKB])
  refine ⟨h.2.1, ?_⟩
  have h3 := h.2.2.1 (by rfl)
  rw [h3]
  norm_num [KB.getFieldWeight, kbC6, emptyKB, assocGet]

/-! ## C8: the order produced by `get_pending_tasks` -/

/-- Two tasks with equal sort keys compare `taskLe` in either order. -/
theorem taskLe_of_key_eq {a y : TaskState} (h : sortKey y = sortKey a) :
    taskLe a y :=
  Or.inr ⟨(congrArg Prod.fst h).symm, le_of_eq (congrArg Prod.snd h).symm⟩

/-- Inserting preserves the per-key fibers: the skipped prefix of an ordered
insert consists of strictly smaller keys, so an element is placed before
every element of its own key fiber. -/
theorem filter_orderedInsert (k : Int × Int) (a : TaskState)
    (l : List TaskState) :
    ((l.orderedInsert taskLe a).filter (fun t => sortKey t = k)) =
      if sortKey a = k then
        a :: l.filter (fun t => sortKey t = k)
      else l.filter (fun t => sortKey t = k) := by
  induction l with
  | nil =>
    by_cases hak : sortKey a = k <;>
      simp [List.orderedInsert, List.filter, hak]
  | cons y ys ih =>
    by_cases hr : taskLe a y
    · simp only [List.orderedInsert]
      rw [if_pos hr]
      by_cases hak : sortKey a = k <;>
        simp [List.filter_cons, hak]
    · simp only [List.orderedInsert]
      rw [if_neg hr]
      rw [List.filter_cons, List.filter_cons, ih]
      by_cases hak : sortKey a = k
      · have hyk : ¬ sortKey y = k := by
          intro hy
          exact hr (taskLe_of_key_eq (by rw [hy, hak]))
        simp [hak, hyk]
      · by_cases hyk : sortKey y = k <;> simp [hak, hyk]

/-- The stable sort keeps each key fiber in list order. -/
theorem filter_insertionSort (k : Int × Int) (l : List TaskState) :
    ((List.insertionSort taskLe l).filter (fun t => sortKey t = k)) =
      l.filter (fun t => sortKey t = k) := by
  induction l with
  | nil => rfl
  | cons a l ih =>
    rw [List.insertionSort, filter_orderedInsert, ih]
    by_cases hak : sortKey a = k <;> simp [List.filter_cons, hak]

/-- Claim C8 (amended and proved).  `get_pending_tasks` returns exactly the
tasks whose status is `pending`, ordered by priority descending then
infestation level descending (the lexicographic key `taskLe`); among tasks
with equal priority and equal infestation level the registry insertion
order is preserved (Python's sort is stable and uses no `created_at`
component), so creation timestamps play no role in the tie-break. -/
theorem c8_pending_order (kb : KB) :
    (∀ t : TaskState, t ∈ kb.getPendingTasks ↔
      t ∈ kb.tasks ∧ t.status = "pending") ∧
    List.Sorted taskLe kb.getPendingTasks ∧
    (∀ k : Int × Int,
      kb.getPendingTasks.filter (fun t => sortKey t = k) =
        (kb.tasks.filter (fun t => t.status = "pending")).filter
          (fun t => sortKey t = k)) := by
  refine ⟨?_, ?_, ?_⟩
  · intro t
    unfold KB.getPendingTasks
    rw [List.mem_insertionSort]
    simp [List.mem_filter]
  · exact List.sorted_insertionSort taskLe _
  · intro k
    exact filter_insertionSort k _

/-- Claim C8 counterexample.  Two pending tasks with equal priority and equal
infestation: the one created later (`tC8a`, `created_at = 10`) was inserted
first and is returned first, before the earlier-created `tC8b`
(`created_at = 5`) — refuting the claimed `createdAt`-ascending
tie-break. -/
theorem c8_counterexample :
    kbC8.getPendingTasks = [tC8a, tC8b] ∧
    tC8b.created_at < tC8a.created_at ∧
    sortKey tC8a = sortKey tC8b := by
  exact ⟨by decide, by decide, by decide⟩

/-- Claim C8 witness: the amended theorem's fiber equation at the concrete
registry `kbC8` and the key `(1, -40)` shared by both tasks. -/
theorem c8_witness :
    kbC8.getPendingTasks.filter (fun t => sortKey t = (1, -40)) =
      [tC8a, tC8b] := by
  have h := (c8_pending_order kbC8).2.2 (1, -40)
  rw [h]
  decide

/-! ## C4: infeasible pairs are never assigned; low agents are sent to refill -/

/-- The `considerPair` returns either the offered pair or the accumulator. -/
theorem considerPair_sound (cost : ℚ) (key : String × String)
    (acc : Option (ℚ × (String × String))) (c : ℚ) (pr : String × String)
    (h : considerPair cost key acc = some (c, pr)) :
    pr = key ∨ acc = some (c, pr) := by
  unfold considerPair at h
  cases acc with
  | none =>
    injection h with h1
    injection h1 with _ h2
    exact Or.inl h2.symm
  | some mk =>
    rcases mk with ⟨mc, k0⟩
    dsimp only at h
    by_cases hlt : cost < mc
    · rw [if_pos hlt] at h
      injection h with h1
      injection h1 with _ h2
      exact Or.inl h2.symm
    · rw [if_neg hlt] at h
      exact Or.inr h

/-- Every pair produced by the task scan for one agent passed both pesticide
guards. -/
theorem scanTasks_sound (grid infGrid : List (List Int))
    (weights : List (Pos × ℚ)) (a : AgentState) (availT : List String) :
    ∀ (ts : List TaskState) (acc : Option (ℚ × (String × String)))
      (c : ℚ) (pr : String × String),
      scanTasks grid infGrid weights a availT ts acc = some (c, pr) →
      (∃ c0, acc = some (c0, pr)) ∨
        ∃ t ∈ ts, pr = (a.agent_id, t.task_id) ∧
          pairOk grid infGrid a t = true := by
  intro ts
  induction ts with
  | nil =>
    intro acc c pr h
    exact Or.inl ⟨c, h⟩
  | cons t ts ih =>
    intro acc c pr h
    unfold scanTasks at h
    by_cases hg : (t.task_id ∈ availT && pairOk grid infGrid a t) = true
    · rw [if_pos hg] at h
      rcases ih _ c pr h with ⟨c0, hacc⟩ | ⟨t2, ht2, hpr, hok⟩
      · rcases considerPair_sound _ _ _ _ _ hacc with hkey | hold
        · refine Or.inr ⟨t, by simp, hkey, ?_⟩
          have hg2 := hg
          simp only [Bool.and_eq_true] at hg2
          exact hg2.2
        · exact Or.inl ⟨c0, hold⟩
      · exact Or.inr ⟨t2, by simp [ht2], hpr, hok⟩
    · rw [if_neg hg] at h
      rcases ih _ c pr h with ⟨c0, hacc⟩ | ⟨t2, ht2, hpr, hok⟩
      · exact Or.inl ⟨c0, hacc⟩
      · exact Or.inr ⟨t2, by simp [ht2], hpr, hok⟩

/-- Every pair produced by the full scan names an agent and a task of the
input pools and passed both pesticide guards. -/
theorem scanAgents_sound (grid infGrid : List (List Int))
    (weights : List (Pos × ℚ)) (tasks : List TaskState)
    (availA availT : List String) :
    ∀ (as_ : List AgentState) (acc : Option (ℚ × (String × String)))
      (c : ℚ) (pr : String × String),
      scanAgents grid infGrid weights tasks availA availT as_ acc =
        some (c, pr) →
      (∃ c0, acc = some (c0, pr)) ∨
        ∃ a ∈ as_, ∃ t ∈ tasks, pr = (a.agent_id, t.task_id) ∧
          pairOk grid infGrid a t = true := by
  intro as_
  induction as_ with
  | nil =>
    intro acc c pr h
    exact Or.inl ⟨c, h⟩
  | cons a as_ ih =>
    intro acc c pr h
    unfold scanAgents at h
    by_cases hg : a.agent_id ∈ availA
    · rw [if_pos hg] at h
      rcases ih _ c pr h with ⟨c0, hacc⟩ | ⟨a2, ha2, t2, ht2, hpr, hok⟩
      · rcases scanTasks_sound grid infGrid weights a availT tasks _ c0 pr hacc
          with ⟨c1, hacc1⟩ | ⟨t2, ht2, hpr, hok⟩
        · exact Or.inl ⟨c1, hacc1⟩
        · exact Or.inr ⟨a, by simp, t2, ht2, hpr, hok⟩
      · exact Or.inr ⟨a2, by simp [ha2], t2, ht2, hpr, hok⟩
    · rw [if_neg hg] at h
      rcases ih _ c pr h with ⟨c0, hacc⟩ | ⟨a2, ha2, t2, ht2, hpr, hok⟩
      · exact Or.inl ⟨c0, hacc⟩
      · exact Or.inr ⟨a2, by simp [ha2], t2, ht2, hpr, hok⟩

/-- Every pair in the greedy result either was in the accumulator or names
pool members that passed both pesticide guards. -/
theorem greedyAssign_sound (grid infGrid : List (List Int))
    (weights : List (Pos × ℚ)) (agents : List AgentState)
    (tasks : List TaskState) :
    ∀ (fuel : Nat) (availA availT : List String)
      (acc : List (String × String)) (pr : String × String),
      pr ∈ greedyAssign grid infGrid weights agents tasks fuel availA availT
        acc →
      pr ∈ acc ∨
        ∃ a ∈ agents, ∃ t ∈ tasks, pr = (a.agent_id, t.task_id) ∧
          pairOk grid infGrid a t = true := by
  intro fuel
  induction fuel with
  | zero =>
    intro availA availT acc pr h
    exact Or.inl h
  | succ fuel ih =>
    intro availA availT acc pr h
    unfold greedyAssign at h
    by_cases he : (availA.isEmpty || availT.isEmpty) = true
    · rw [if_pos he] at h
      exact Or.inl h
    · rw [if_neg he] at h
      cases hscan : scanAgents grid infGrid weights tasks availA availT
        agents none with
      | none =>
        rw [hscan] at h
        exact Or.inl h
      | some best =>
        rcases best with ⟨c, aid, tid⟩
        rw [hscan] at h
        rcases ih _ _ _ pr h with hmem | hgood
        · rcases List.mem_append.mp hmem with hacc | hnew
          · exact Or.inl hacc
          · have hpr : pr = (aid, tid) := List.mem_singleton.mp hnew
            rcases scanAgents_sound grid infGrid weights tasks availA availT
              agents none c (aid, tid) hscan with ⟨c0, habs⟩ | hgood
            · exact absurd habs (by simp)
            · exact Or.inr (hpr ▸ hgood)
        · exact Or.inr hgood

/-- Soundness of `_optimal_assignment`: every returned pair names an agent
and a task from the pools whose pesticide guards both passed. -/
theorem optimalAssignment_sound (grid infGrid : List (List Int))
    (weights : List (Pos × ℚ)) (agents : List AgentState)
    (tasks : List TaskState) (pr : String × String)
    (h : pr ∈ optimalAssignment grid infGrid weights agents tasks) :
    ∃ a ∈ agents, ∃ t ∈ tasks, pr = (a.agent_id, t.task_id) ∧
      pairOk grid infGrid a t = true := by
  unfold optimalAssignment at h
  rcases greedyAssign_sound grid infGrid weights agents tasks tasks.length
    (agents.map (fun a => a.agent_id)) (tasks.map (fun t => t.task_id)) [] pr h
    with habs | hgood
  · exact absurd habs (by simp)
  · exact hgood

/-- The `_trigger_refill` writes a `refill_pesticide` command into the agent's
own mailbox whenever a barn exists. -/
theorem triggerRefill_action (kb : KB) (f : AgentState) (urg : Bool)
    (hbarn : kb.barnPositions ≠ []) :
    sharedAction
      ((triggerRefill kb f urg).getShared (.commandOf f.agent_id)) =
      some "refill_pesticide" := by
  unfold triggerRefill
  cases hfb : findNearestBarn f.position kb.barnPositions with
  | none =>
    exfalso
    cases hl : kb.barnPositions with
    | nil => exact hbarn hl
    | cons b bs =>
      rw [hl] at hfb
      exact Option.noConfusion hfb
  | some barn =>
    dsimp only
    show sharedAction (assocGet (assocSet _ _ _) _) = _
    rw [assocGet_set_self]
    rfl

/-- The `_trigger_refill` touches no other agent's mailbox. -/
theorem triggerRefill_other (kb : KB) (f : AgentState) (urg : Bool)
    (k : SharedKey) (hk : k ≠ .commandOf f.agent_id) :
    (triggerRefill kb f urg).getShared k = kb.getShared k := by
  unfold triggerRefill
  cases hfb : findNearestBarn f.position kb.barnPositions with
  | none => rfl
  | some barn =>
    dsimp only
    show assocGet (assocSet (kb.updateAgent f.agent_id _).shared _ _) k =
      kb.getShared k
    rw [assocGet_set_ne _ _ _ _ hk, (updateAgent_frame kb f.agent_id _).1]
    rfl

/-- The `_trigger_refill` never changes the barn list. -/
theorem triggerRefill_barns (kb : KB) (f : AgentState) (urg : Bool) :
    (triggerRefill kb f urg).barnPositions = kb.barnPositions := by
  unfold triggerRefill
  cases hfb : findNearestBarn f.position kb.barnPositions with
  | none => rfl
  | some barn =>
    dsimp only
    show (kb.updateAgent f.agent_id _).barnPositions = kb.barnPositions
    exact (updateAgent_frame kb f.agent_id _).2.2.1

/-- The `_cancel_task_and_refill` also ends by writing the agent's own refill
command. -/
theorem cancelTaskAndRefill_action (kb : KB) (f : AgentState)
    (task : TaskState) (hbarn : kb.barnPositions ≠ []) :
    sharedAction
      ((cancelTaskAndRefill kb f task).getShared (.commandOf f.agent_id)) =
      some "refill_pesticide" := by
  unfold cancelTaskAndRefill
  apply triggerRefill_action
  rw [(updateAgent_frame _ f.agent_id _).2.2.1,
    (updateTask_frame kb task.task_id _).2.2.1]
  exact hbarn

/-- The `_cancel_task_and_refill` touches no other agent's mailbox. -/
theorem cancelTaskAndRefill_other (kb : KB) (f : AgentState)
    (task : TaskState) (k : SharedKey) (hk : k ≠ .commandOf f.agent_id) :
    (cancelTaskAndRefill kb f task).getShared k = kb.getShared k := by
  unfold cancelTaskAndRefill
  rw [triggerRefill_other _ _ _ _ hk]
  show assocGet ((kb.updateTask task.task_id _).updateAgent f.agent_id _).shared k =
    kb.getShared k
  rw [(updateAgent_frame _ f.agent_id _).1,
    (updateTask_frame kb task.task_id _).1]
  rfl

/-- The `_cancel_task_and_refill` never changes the barn list. -/
theorem cancelTaskAndRefill_barns (kb : KB) (f : AgentState)
    (task : TaskState) :
    (cancelTaskAndRefill kb f task).barnPositions = kb.barnPositions := by
  unfold cancelTaskAndRefill
  rw [triggerRefill_barns]
  rw [(updateAgent_frame _ f.agent_id _).2.2.1,
    (updateTask_frame kb task.task_id _).2.2.1]

/-- Processing a fumigator whose level is critical (≤ 10), or low (< 100)
while idle or just-completed, leaves a `refill_pesticide` command in its
mailbox whatever the task branch then does. -/
theorem rmProcessAgent_action (kb : KB) (f : AgentState)
    (hcond : f.pesticide_level ≤ 10 ∨
      (f.pesticide_level < 100 ∧ (f.status = "idle" ∨ f.status = "completed")))
    (hbarn : kb.barnPositions ≠ []) :
    sharedAction
      ((rmProcessAgent kb f).getShared (.commandOf f.agent_id)) =
      some "refill_pesticide" := by
  unfold rmProcessAgent
  have hkb1 : ∀ kb1 : KB, kb1.barnPositions ≠ [] →
      sharedAction (kb1.getShared (.commandOf f.agent_id)) =
        some "refill_pesticide" →
      sharedAction
        ((match f.current_task_id with
          | some tid =>
            match kb1.getTask tid with
            | some task =>
              if f.pesticide_level < task.infestation_level then
                cancelTaskAndRefill kb1 f task
              else kb1
            | none => kb1
          | none => kb1).getShared (.commandOf f.agent_id)) =
        some "refill_pesticide" := by
    intro kb1 hb1 hw
    cases f.current_task_id with
    | none => exact hw
    | some tid =>
      dsimp only
      cases kb1.getTask tid with
      | none => exact hw
      | some task =>
        dsimp only
        by_cases hlt : f.pesticide_level < task.infestation_level
        · rw [if_pos hlt]
          exact cancelTaskAndRefill_action kb1 f task hb1
        · rw [if_neg hlt]
          exact hw
  by_cases hc : f.pesticide_level ≤ 10
  · rw [if_pos hc]
    exact hkb1 _ (by rw [triggerRefill_barns]; exact hbarn)
      (triggerRefill_action kb f true hbarn)
  · rw [if_neg hc]
    rcases hcond with hcrit | ⟨hlow, hst⟩
    · exact absurd hcrit hc
    · rw [if_pos hlow, if_pos hst]
      exact hkb1 _ (by rw [triggerRefill_barns]; exact hbarn)
        (triggerRefill_action kb f false hbarn)

/-- Processing one fumigator touches no other agent's mailbox. -/
theorem rmProcessAgent_other (kb : KB) (f : AgentState) (k : SharedKey)
    (hk : k ≠ .commandOf f.agent_id) :
    (rmProcessAgent kb f).getShared k = kb.getShared k := by
  unfold rmProcessAgent
  have hkb1 : ∀ kb1 : KB, kb1.getShared k = kb.getShared k →
      (match f.current_task_id with
        | some tid =>
          match kb1.getTask tid with
          | some task =>
            if f.pesticide_level < task.infestation_level then
              cancelTaskAndRefill kb1 f task
            else kb1
          | none => kb1
        | none => kb1).getShared k = kb.getShared k := by
    intro kb1 hw
    cases f.current_task_id with
    | none => exact hw
    | some tid =>
      dsimp only
      cases kb1.getTask tid with
      | none => exact hw
      | some task =>
        dsimp only
        by_cases hlt : f.pesticide_level < task.infestation_level
        · rw [if_pos hlt, cancelTaskAndRefill_other _ _ _ _ hk]
          exact hw
        · rw [if_neg hlt]
          exact hw
  by_cases hc : f.pesticide_level ≤ 10
  · rw [if_pos hc]
    exact hkb1 _ (triggerRefill_other kb f true k hk)
  · rw [if_neg hc]
    by_cases hlow : f.pesticide_level < 100
    · rw [if_pos hlow]
      by_cases hst : f.status = "idle" ∨ f.status = "completed"
      · rw [if_pos hst]
        exact hkb1 _ (triggerRefill_other kb f false k hk)
      · rw [if_neg hst]
        exact hkb1 _ rfl
    · rw [if_neg hlow]
      exact hkb1 _ rfl

/-- Processing one fumigator never changes the barn list. -/
theorem rmProcessAgent_barns (kb : KB) (f : AgentState) :
    (rmProcessAgent kb f).barnPositions = kb.barnPositions := by
  unfold rmProcessAgent
  have hkb1 : ∀ kb1 : KB, kb1.barnPositions = kb.barnPositions →
      (match f.current_task_id with
        | some tid =>
          match kb1.getTask tid with
          | some task =>
            if f.pesticide_level < task.infestation_level then
              cancelTaskAndRefill kb1 f task
            else kb1
          | none => kb1
        | none => kb1).barnPositions = kb.barnPositions := by
    intro kb1 hw
    cases f.current_task_id with
    | none => exact hw
    | some tid =>
      dsimp only
      cases kb1.getTask tid with
      | none => exact hw
      | some task =>
        dsimp only
        by_cases hlt : f.pesticide_level < task.infestation_level
        · rw [if_pos hlt, cancelTaskAndRefill_barns]
          exact hw
        · rw [if_neg hlt]
          exact hw
  by_cases hc : f.pesticide_level ≤ 10
  · rw [if_pos hc]
    exact hkb1 _ (triggerRefill_barns kb f true)
  · rw [if_neg hc]
    by_cases hlow : f.pesticide_level < 100
    · rw [if_pos hlow]
      by_cases hst : f.status = "idle" ∨ f.status = "completed"
      · rw [if_pos hst]
        exact hkb1 _ (triggerRefill_barns kb f false)
      · rw [if_neg hst]
        exact hkb1 _ rfl
    · rw [if_neg hlow]
      exact hkb1 _ rfl

/-- Folding the per-agent processing over agents other than the observed one
preserves the observed mailbox entry. -/
theorem foldl_rm_preserve (k : SharedKey) :
    ∀ (l : List AgentState) (kb : KB),
      (∀ g ∈ l, SharedKey.commandOf g.agent_id ≠ k) →
      (l.foldl rmProcessAgent kb).getShared k = kb.getShared k := by
  intro l
  induction l with
  | nil => intro kb _; rfl
  | cons g gs ih =>
    intro kb hl
    rw [List.foldl_cons, ih _ (fun g2 hg2 => hl g2 (by simp [hg2]))]
    exact rmProcessAgent_other kb g k (Ne.symm (hl g (by simp)))

/-- Folding the per-agent processing never changes the barn list. -/
theorem foldl_rm_barns :
    ∀ (l : List AgentState) (kb : KB),
      (l.foldl rmProcessAgent kb).barnPositions = kb.barnPositions := by
  intro l
  induction l with
  | nil => intro kb; rfl
  | cons g gs ih =>
    intro kb
    rw [List.foldl_cons, ih, rmProcessAgent_barns]

/-- Claim C4 (confirmed).  (i) `_optimal_assignment` never returns a pair
whose agent's pesticide level is strictly below the estimated need for the
whole trip (destination infestation plus sampled ≥ 10 en-route Field
infestations, times the 1.05 margin) — in particular an agent with level 5
is never paired with a task needing 50; the id-uniqueness hypotheses state
that the pools come from the id-keyed registries.  (ii) After one
`ResourceManagerKS.execute`, every idle fumigator whose level is below the
low threshold 100 has a `refill_pesticide` (return-to-depot) command in its
mailbox, provided the world has a depot. -/
theorem c4_low_pesticide (grid infGrid : List (List Int))
    (weights : List (Pos × ℚ)) (agents : List AgentState)
    (tasks : List TaskState) (a : AgentState) (t : TaskState)
    (hA : (agents.map (fun x => x.agent_id)).Nodup)
    (hT : (tasks.map (fun x => x.task_id)).Nodup)
    (ha : a ∈ agents) (ht : t ∈ tasks)
    (hlow : a.pesticide_level <
      estimatePesticideNeeded a.position t.position grid infGrid
        t.infestation_level)
    (kb : KB) (b : AgentState) (hb : b ∈ kb.agents)
    (hbty : b.agent_type = "fumigator") (hbidle : b.status = "idle")
    (hblow : b.pesticide_level < 100) (hbarn : kb.barnPositions ≠ [])
    (hkbA : (kb.agents.map (fun x => x.agent_id)).Nodup) :
    (a.agent_id, t.task_id) ∉
      optimalAssignment grid infGrid weights agents tasks ∧
    sharedAction
      ((resourceManagerExec kb).getShared (.commandOf b.agent_id)) =
      some "refill_pesticide" := by
  constructor
  · intro hmem
    rcases optimalAssignment_sound grid infGrid weights agents tasks _ hmem
      with ⟨a2, ha2, t2, ht2, hpr, hok⟩
    have hpr2 := Prod.mk.injEq .. ▸ hpr
    rw [Prod.mk.injEq] at hpr
    have ha2a : a2 = a :=
      List.inj_on_of_nodup_map hA ha2 ha (by rw [hpr.1])
    have ht2t : t2 = t :=
      List.inj_on_of_nodup_map hT ht2 ht (by rw [hpr.2])
    subst ha2a
    subst ht2t
    unfold pairOk at hok
    rw [Bool.and_eq_true] at hok
    have hge := of_decide_eq_true hok.1
    omega
  · have hbf : b ∈ kb.getAgentsByType "fumigator" :=
      List.mem_filter.mpr ⟨hb, by simp [hbty]⟩
    rcases List.append_of_mem hbf with ⟨l1, l2, hsplit⟩
    have hnodupF :
        ((kb.getAgentsByType "fumigator").map (fun x => x.agent_id)).Nodup :=
      List.Nodup.sublist (List.Sublist.map _ (List.filter_sublist _)) hkbA
    have hl2 : ∀ g ∈ l2, g.agent_id ≠ b.agent_id := by
      intro g hg he
      rw [hsplit, List.map_append] at hnodupF
      have hr := hnodupF.of_append_right
      rw [List.map_cons] at hr
      have hnotin := (List.nodup_cons.mp hr).1
      exact hnotin (he ▸ List.mem_map_of_mem _ hg)
    have hcond : b.pesticide_level ≤ 10 ∨
        (b.pesticide_level < 100 ∧
          (b.status = "idle" ∨ b.status = "completed")) := by
      by_cases h10 : b.pesticide_level ≤ 10
      · exact Or.inl h10
      · exact Or.inr ⟨hblow, Or.inl hbidle⟩
    unfold resourceManagerExec
    rw [hsplit, List.foldl_append, List.foldl_cons]
    have hbarnMid : (List.foldl rmProcessAgent kb l1).barnPositions ≠ [] := by
      rw [foldl_rm_barns]
      exact hbarn
    rw [foldl_rm_preserve (.commandOf b.agent_id) l2 _
      (fun g hg he => hl2 g hg (by injection he))]
    exact rmProcessAgent_action _ b hcond hbarnMid

/-- Claim C4 witness: Scenario B at concrete data — agent level 5 at `(0, 0)`,
task needing 50 at `(0, 1)` (estimate 52 after the margin): the pair is not
assigned, and after one ResourceManager pass the agent's mailbox holds a
`refill_pesticide` command. -/
theorem c4_witness :
    (agC4.agent_id, tkC4.task_id) ∉
      optimalAssignment gridC4 infC4 [] [agC4] [tkC4] ∧
    sharedAction
      ((resourceManagerExec kbC4).getShared (.commandOf agC4.agent_id)) =
      some "refill_pesticide" := by
  refine c4_low_pesticide gridC4 infC4 [] [agC4] [tkC4] agC4 tkC4
    (by simp) (by simp) (by simp) (by simp) ?_ kbC4 agC4 (by simp [kbC4, emptyKB])
    rfl rfl (by norm_num [agC4, mkAgent]) (by simp [kbC4, emptyKB])
    (by simp [kbC4, emptyKB])
  norm_num [agC4, tkC4, mkAgent, mkTask, estimatePesticideNeeded, sampleCount,
    samplePoint, pyInt, manhattan, gridGet, List.range_succ, gridC4, infC4]
